import Mathlib

/-!
Verification of the layout core of a minimalist browser engine
(`src/layout.rs`).  `f32` arithmetic is modelled by exact rational
arithmetic (`ℚ`): layout only adds, subtracts, multiplies, divides and
compares, so the rational model is the intended real-number semantics of
the code.
-/

namespace Minibrowser

/-- CSS length units (`Unit` in `css.rs`, a collaborator of the layout core). -/
inductive CSSUnit where
  | Px | Em | Rem | Per
deriving DecidableEq, Repr

/-- RGBA color (`Color` in `css.rs`); only identity matters for layout. -/
structure Color where
  r : Nat
  g : Nat
  b : Nat
  a : Nat
deriving DecidableEq, Repr

/-- Modelled from the spec: a scalar CSS declared value — an element of an
`ArrayValue`.  The layout core only ever inspects string literals and
keywords inside arrays (font stacks), so array elements are modelled as
scalars. -/
inductive ValueAtom where
  | Keyword (s : String)
  | Length (v : ℚ) (u : CSSUnit)
  | StringLiteral (s : String)
  | ColorValue (c : Color)
deriving DecidableEq, Repr

/-- CSS declared values (`Value` in `css.rs`):
`Keyword | Length(f, Unit) | StringLiteral | ArrayValue | Color`. -/
inductive Value where
  | Keyword (s : String)
  | Length (v : ℚ) (u : CSSUnit)
  | StringLiteral (s : String)
  | ArrayValue (vs : List ValueAtom)
  | ColorValue (c : Color)
deriving DecidableEq, Repr

/-- Modelled from the spec: the styled node's resolved declarations, exposed
as a name-to-value map (`StyledNode` lives in `style.rs`, which is not part
of the layout source; §6 of the spec describes its lookup interface). -/
def Style := List (String × Value)

/-- Modelled from the spec: `value(name) → Value?` — the declared value
for a property name, if any. -/
def Style.value (s : Style) (name : String) : Option Value :=
  (List.find? (fun p => p.1 == name) s).map (fun p => p.2)

/-- Modelled from the spec: `lookup(primary, shorthand, default) → Value` —
the primary property if declared, else the shorthand, else the default. -/
def Style.lookup (s : Style) (primary shorthand : String) (default : Value) : Value :=
  match s.value primary with
  | some v => v
  | none =>
    match s.value shorthand with
    | some v => v
    | none => default

/-- Modelled from the spec: `lookup_length_px(name, default) → f32` typed
accessor (declared length in px, else the default). -/
def Style.lookup_length_px (s : Style) (name : String) (default : ℚ) : ℚ :=
  match s.value name with
  | some (Value.Length v CSSUnit.Px) => v
  | _ => default

/-- Modelled from the spec: `lookup_string(name, default) → String` typed
accessor (declared keyword/string, else the default). -/
def Style.lookup_string (s : Style) (name : String) (default : String) : String :=
  match s.value name with
  | some (Value.Keyword str) => str
  | some (Value.StringLiteral str) => str
  | _ => default

/-- Modelled from the spec: `lookup_font_weight(default) → i32`. -/
def Style.lookup_font_weight (s : Style) (default : Int) : Int :=
  match s.value "font-weight" with
  | some (Value.Keyword str) => if str == "bold" then 700 else default
  | some (Value.Length v CSSUnit.Px) => ⌊v⌋
  | _ => default

/-- `Rect` from `layout.rs`: floating-point pixel rectangle, origin top-left. -/
structure Rect where
  x : ℚ
  y : ℚ
  width : ℚ
  height : ℚ
deriving DecidableEq, Repr

instance : Inhabited Rect := ⟨⟨0, 0, 0, 0⟩⟩

/-- `EdgeSizes` from `layout.rs`. -/
structure EdgeSizes where
  left : ℚ
  right : ℚ
  top : ℚ
  bottom : ℚ
deriving DecidableEq, Repr

instance : Inhabited EdgeSizes := ⟨⟨0, 0, 0, 0⟩⟩

/-- `Rect::expanded_by` from `layout.rs`. -/
def Rect.expanded_by (r : Rect) (edge : EdgeSizes) : Rect :=
  { x := r.x - edge.left
    y := r.y - edge.top
    width := r.width + edge.left + edge.right
    height := r.height + edge.top + edge.bottom }

/-- `Rect::contains` from `layout.rs`:
`self.x <= x && self.x + self.width >= x && self.y <= y && self.y + self.height > y`. -/
def Rect.contains (r : Rect) (x y : ℚ) : Bool :=
  decide (r.x ≤ x) && decide (r.x + r.width ≥ x) &&
  decide (r.y ≤ y) && decide (r.y + r.height > y)

/-- `Dimensions` from `layout.rs`. -/
structure Dimensions where
  content : Rect
  padding : EdgeSizes
  border : EdgeSizes
  margin : EdgeSizes
deriving DecidableEq, Repr

instance : Inhabited Dimensions := ⟨⟨default, default, default, default⟩⟩

/-- `Dimensions::padding_box` from `layout.rs`. -/
def Dimensions.padding_box (d : Dimensions) : Rect :=
  d.content.expanded_by d.padding

/-- `Dimensions::border_box` from `layout.rs`. -/
def Dimensions.border_box (d : Dimensions) : Rect :=
  d.padding_box.expanded_by d.border

/-- `Dimensions::margin_box` from `layout.rs`. -/
def Dimensions.margin_box (d : Dimensions) : Rect :=
  d.border_box.expanded_by d.margin

/-- `LayoutBox::length_to_px` from `layout.rs`: px passes through, em/rem
multiply by the box's font-size (default 10), percentages and everything
else resolve to 0. -/
def length_to_px (style : Style) (value : Value) : ℚ :=
  let font_size := style.lookup_length_px "font-size" 10
  match value with
  | Value.Length v CSSUnit.Px => v
  | Value.Length v CSSUnit.Em => v * font_size
  | Value.Length v CSSUnit.Rem => v * font_size
  | Value.Length _ CSSUnit.Per => 0
  | _ => 0

/-- `fn sum` from `layout.rs`: left fold of `+` over a list starting at 0. -/
def sum (l : List ℚ) : ℚ := l.foldl (fun a b => a + b) 0

/-- The keyword value `"auto"` (`let auto = Keyword("auto".to_string())`). -/
def autoV : Value := Value.Keyword "auto"

/-- The seven horizontal declared values read by `calculate_block_width`,
with a percentage `width` already resolved against the containing width. -/
structure CBWInputs where
  width : Value
  margin_left : Value
  margin_right : Value
  border_left : Value
  border_right : Value
  padding_left : Value
  padding_right : Value
deriving DecidableEq

/-- The lookups at the top of `calculate_block_width`: `width` defaults to
`auto`; a percentage width resolves to `containing.content.width * per/100`
px; margins/borders/paddings default to 0 via the `lookup` chains. -/
def cbw_lookups (style : Style) (containing_width : ℚ) : CBWInputs :=
  let auto := autoV
  let width0 := (style.value "width").getD auto
  let width :=
    match width0 with
    | Value.Length per CSSUnit.Per => Value.Length (containing_width * (per / 100)) CSSUnit.Px
    | w => w
  let zero := Value.Length 0 CSSUnit.Px
  { width := width
    margin_left := style.lookup "margin-left" "margin" zero
    margin_right := style.lookup "margin-right" "margin" zero
    border_left := style.lookup "border-width-left" "border-width" zero
    border_right := style.lookup "border-width-right" "border-width" zero
    padding_left := style.lookup "padding-left" "padding" zero
    padding_right := style.lookup "padding-right" "padding" zero }

/-- The `total` sum in `calculate_block_width` (same iteration order as the
source's array literal). -/
def cbw_total (style : Style) (i : CBWInputs) : ℚ :=
  sum [length_to_px style i.margin_left, length_to_px style i.margin_right,
       length_to_px style i.border_left, length_to_px style i.border_right,
       length_to_px style i.padding_left, length_to_px style i.padding_right,
       length_to_px style i.width]

/-- The pre-step of `calculate_block_width`: if width is not auto and the
total overflows the container, any auto margins become `Length(0, Px)`. -/
def cbw_prestep (style : Style) (containing_width : ℚ) (i : CBWInputs) : CBWInputs :=
  if i.width != autoV && decide (cbw_total style i > containing_width) then
    { i with
      margin_left := if i.margin_left == autoV then Value.Length 0 CSSUnit.Px else i.margin_left
      margin_right := if i.margin_right == autoV then Value.Length 0 CSSUnit.Px else i.margin_right }
  else i

/-- The `match (width == auto, margin_left == auto, margin_right == auto)`
of `calculate_block_width`, applied to the pre-stepped inputs with the given
underflow. -/
def cbw_solve (style : Style) (underflow : ℚ) (i : CBWInputs) : CBWInputs :=
  match (i.width == autoV, i.margin_left == autoV, i.margin_right == autoV) with
  | (false, false, false) =>
    { i with margin_right :=
        Value.Length (length_to_px style i.margin_right + underflow) CSSUnit.Px }
  | (false, false, true) =>
    { i with margin_right := Value.Length underflow CSSUnit.Px }
  | (false, true, false) =>
    { i with margin_left := Value.Length underflow CSSUnit.Px }
  | (true, _, _) =>
    let ml := if i.margin_left == autoV then Value.Length 0 CSSUnit.Px else i.margin_left
    let mr := if i.margin_right == autoV then Value.Length 0 CSSUnit.Px else i.margin_right
    if decide (underflow ≥ 0) then
      { i with width := Value.Length underflow CSSUnit.Px, margin_left := ml, margin_right := mr }
    else
      { i with width := Value.Length 0 CSSUnit.Px, margin_left := ml,
               margin_right := Value.Length (length_to_px style mr + underflow) CSSUnit.Px }
  | (false, true, true) =>
    { i with margin_left := Value.Length (underflow / 2) CSSUnit.Px
             margin_right := Value.Length (underflow / 2) CSSUnit.Px }

/-- The used horizontal values written into `self.dimensions` at the end of
`calculate_block_width`. -/
structure BlockWidths where
  width : ℚ
  margin_left : ℚ
  margin_right : ℚ
  border_left : ℚ
  border_right : ℚ
  padding_left : ℚ
  padding_right : ℚ
deriving DecidableEq, Repr

/-- `LayoutBox::calculate_block_width` from `layout.rs`: look the seven
horizontal values up, force auto margins to 0 on overflow, solve the
constraint equation by the auto-case match, and convert the results to px. -/
def calculate_block_width (style : Style) (containing_width : ℚ) : BlockWidths :=
  let i0 := cbw_lookups style containing_width
  let total := cbw_total style i0
  let i1 := cbw_prestep style containing_width i0
  let underflow := containing_width - total
  let r := cbw_solve style underflow i1
  { width := length_to_px style r.width
    margin_left := length_to_px style r.margin_left
    margin_right := length_to_px style r.margin_right
    border_left := length_to_px style r.border_left
    border_right := length_to_px style r.border_right
    padding_left := length_to_px style r.padding_left
    padding_right := length_to_px style r.padding_right }

/-- The px contribution of the seven horizontal declared values, written as
a plain sum (same summands as `cbw_total`). -/
def cbw_px_sum (style : Style) (i : CBWInputs) : ℚ :=
  length_to_px style i.margin_left + length_to_px style i.margin_right +
  length_to_px style i.border_left + length_to_px style i.border_right +
  length_to_px style i.padding_left + length_to_px style i.padding_right +
  length_to_px style i.width

/-! ## DOM nodes, render tree and the inline formatter -/
/-- Modelled from the spec: the DOM node behind a styled node (`NodeType`
in `dom.rs`): element with tag name and attribute map, or
text/comment/cdata/meta. -/
inductive NodeType where
  | TextNode (s : String)
  | ElementNode (tag_name : String) (attributes : List (String × String))
  | Comment (s : String)
  | Cdata (s : String)
  | Meta
deriving DecidableEq, Repr

/-- Modelled from the spec: `attributes.get(name)` on an element's
attribute map. -/
def attrs_get (attributes : List (String × String)) (name : String) : Option String :=
  (List.find? (fun p => p.1 == name) attributes).map (fun p => p.2)

/-- `BLACK` from `render.rs` (external collaborator): opaque black. -/
def BLACK : Color := ⟨0, 0, 0, 255⟩

/-- Modelled from the spec: `lookup_color(name, default) → Color` typed
accessor. -/
def Style.lookup_color (s : Style) (name : String) (default : Color) : Color :=
  match s.value name with
  | some (Value.ColorValue c) => c
  | _ => default

/-- Modelled from the spec: `load(doc, src) → image(width, height, pixels)`
— only the decoded dimensions matter to layout (`LoadedImage` in
`image.rs`). -/
structure LoadedImage where
  width : ℚ
  height : ℚ
deriving DecidableEq, Repr

/-- `RenderTextBox` from `layout.rs`. -/
structure RenderTextBox where
  rect : Rect
  text : String
  color : Option Color
  font_size : ℚ
  font_family : String
  link : Option String
  font_weight : Int
  font_style : String
  valign : String
deriving DecidableEq, Repr

/-- `RenderImageBox` from `layout.rs`. -/
structure RenderImageBox where
  rect : Rect
  image : LoadedImage
  valign : String
deriving DecidableEq, Repr

/-- `RenderErrorBox` from `layout.rs`. -/
structure RenderErrorBox where
  rect : Rect
  valign : String
deriving DecidableEq, Repr

mutual

/-- `RenderBox` from `layout.rs`:
`Block | Anonymous | Inline() | InlineBlock()`. -/
inductive RenderBox where
  | Block (bx : RenderBlockBox)
  | Anonymous (bx : RenderAnonymousBox)
  | Inline
  | InlineBlock

/-- `RenderBlockBox` from `layout.rs` (fields in source order). -/
inductive RenderBlockBox where
  | mk (title : String) (rect : Rect) (margin : EdgeSizes) (padding : EdgeSizes)
       (background_color : Option Color) (border_color : Option Color)
       (border_width : EdgeSizes) (valign : String) (children : List RenderBox)

/-- `RenderAnonymousBox` from `layout.rs`. -/
inductive RenderAnonymousBox where
  | mk (rect : Rect) (children : List RenderLineBox)

/-- `RenderLineBox` from `layout.rs`. -/
inductive RenderLineBox where
  | mk (rect : Rect) (children : List RenderInlineBoxType) (baseline : ℚ)

/-- `RenderInlineBoxType` from `layout.rs`:
`Text | Image | Block | Error`. -/
inductive RenderInlineBoxType where
  | Text (t : RenderTextBox)
  | Image (i : RenderImageBox)
  | Block (b : RenderBlockBox)
  | Error (e : RenderErrorBox)

end

def RenderBlockBox.title : RenderBlockBox → String
  | .mk t _ _ _ _ _ _ _ _ => t

def RenderBlockBox.rect : RenderBlockBox → Rect
  | .mk _ r _ _ _ _ _ _ _ => r

def RenderBlockBox.valign : RenderBlockBox → String
  | .mk _ _ _ _ _ _ _ v _ => v

def RenderBlockBox.children : RenderBlockBox → List RenderBox
  | .mk _ _ _ _ _ _ _ _ cs => cs

def RenderAnonymousBox.rect : RenderAnonymousBox → Rect
  | .mk r _ => r

def RenderAnonymousBox.children : RenderAnonymousBox → List RenderLineBox
  | .mk _ cs => cs

def RenderLineBox.rect : RenderLineBox → Rect
  | .mk r _ _ => r

def RenderLineBox.children : RenderLineBox → List RenderInlineBoxType
  | .mk _ cs _ => cs

def RenderLineBox.baseline : RenderLineBox → ℚ
  | .mk _ _ b => b

/-- The rect of an inline fragment (the `match` at the top of
`add_box_to_current_line` and `adjust_current_line_vertical`). -/
def RenderInlineBoxType.rect : RenderInlineBoxType → Rect
  | .Text t => t.rect
  | .Image i => i.rect
  | .Block b => b.rect
  | .Error e => e.rect

/-- The valign of an inline fragment (same `match`). -/
def RenderInlineBoxType.valign : RenderInlineBoxType → String
  | .Text t => t.valign
  | .Image i => i.valign
  | .Block b => b.valign
  | .Error e => e.valign

/-- Replace the `rect.y` of an inline fragment (the mutation performed by
`adjust_current_line_vertical`). -/
def RenderInlineBoxType.set_rect_y (bx : RenderInlineBoxType) (y : ℚ) : RenderInlineBoxType :=
  match bx with
  | .Text t => .Text { t with rect := { t.rect with y := y } }
  | .Image i => .Image { i with rect := { i.rect with y := y } }
  | .Block (.mk t r m p bg bc bw v cs) => .Block (.mk t { r with y := y } m p bg bc bw v cs)
  | .Error e => .Error { e with rect := { e.rect with y := y } }

/-- The `Looper` state of the inline formatter (`struct Looper` in
`layout.rs`).  The font cache is represented by its installed family names
(`has_font_family` is the only query layout makes besides measuring), and
the styled node by its declaration map plus its DOM node. -/
structure Looper where
  lines : List RenderLineBox
  current : RenderLineBox
  extents : Rect
  current_start : ℚ
  current_end : ℚ
  current_bottom : ℚ
  style_node : Style
  node : NodeType
  font_families : List String

/-- `Looper::start_new_line` from `layout.rs`: push the current line and
open a fresh one at `(extents.x, current_bottom)` of the extents' width,
resetting both cursors to `extents.x`. -/
def Looper.start_new_line (l : Looper) : Looper :=
  { l with
    lines := l.lines ++ [l.current]
    current := RenderLineBox.mk ⟨l.extents.x, l.current_bottom, l.extents.width, 0⟩ [] 0
    current_start := l.extents.x
    current_end := l.extents.x }

/-- `Looper::add_box_to_current_line` from `layout.rs`: grow the current
line's height to the fragment's height if larger, append the fragment, and
move `current_start` up to `current_end`. -/
def Looper.add_box_to_current_line (l : Looper) (bx : RenderInlineBoxType) : Looper :=
  { l with
    current := RenderLineBox.mk
      { l.current.rect with height := max l.current.rect.height bx.rect.height }
      (l.current.children ++ [bx]) l.current.baseline
    current_start := l.current_end }

/-- The per-fragment `match` of `adjust_current_line_vertical`: the new
`rect.y` for a fragment with the given `vertical-align` keyword inside the
given line rect (`"sub"` is written `− 10.0 + 10.0` exactly as in the
source). -/
def adjusted_y (line_rect : Rect) (valign : String) (r : Rect) : ℚ :=
  match valign with
  | "bottom" => line_rect.y + line_rect.height - r.height
  | "sub" => line_rect.y + line_rect.height - r.height - 10 + 10
  | "baseline" => line_rect.y + line_rect.height - r.height - 10
  | "super" => line_rect.y + line_rect.height - r.height - 10 - 10
  | "middle" => line_rect.y + (line_rect.height - r.height) / 2
  | "top" => line_rect.y
  | _ => r.y

/-- `Looper::adjust_current_line_vertical` from `layout.rs`: reposition
every fragment of the current line according to its `vertical-align`. -/
def Looper.adjust_current_line_vertical (l : Looper) : Looper :=
  { l with
    current := RenderLineBox.mk l.current.rect
      (l.current.children.map (fun ch => ch.set_rect_y (adjusted_y l.current.rect ch.valign ch.rect)))
      l.current.baseline }

/-- `FontCache::has_font_family` (external `render.rs`): the cache holds a
set of installed family names. -/
def has_font_family (font_families : List String) (name : String) : Bool :=
  font_families.contains name

/-- The scanning loop inside `find_font_family`'s `ArrayValue` arm: the
first string-literal or keyword entry the font cache has, else
`"sans-serif"`. -/
def find_font_family_scan (vals : List ValueAtom) (font_families : List String) : String :=
  match vals with
  | [] => "sans-serif"
  | v :: rest =>
    match v with
    | ValueAtom.StringLiteral str =>
      if has_font_family font_families str then str
      else find_font_family_scan rest font_families
    | ValueAtom.Keyword str =>
      if has_font_family font_families str then str
      else find_font_family_scan rest font_families
    | _ => find_font_family_scan rest font_families

/-- `LayoutBox::find_font_family` from `layout.rs`: look `font-family` up
(default keyword `"sans-serif"`); an array value is scanned for the first
family the cache has (else `"sans-serif"`); a single keyword is returned
as-is; anything else falls back to `"sans-serif"`. -/
def find_font_family (style : Style) (font_families : List String) : String :=
  let font_family_values :=
    style.lookup "font-family" "font-family" (Value.Keyword "sans-serif")
  match font_family_values with
  | Value.ArrayValue vals => find_font_family_scan vals font_families
  | Value.Keyword str => str
  | _ => "sans-serif"

/-- The text measurer (`calculate_word_length` delegates to the external
glyph brush): pixel width of a word given font size, family, weight and
style. -/
def Measure := String → ℚ → String → Int → String → ℚ

/-- Rust `str::split_whitespace`: the non-empty maximal runs of
non-whitespace characters. -/
def split_whitespace (s : String) : List String :=
  (s.split Char.isWhitespace).filter (fun w => !(w == ""))

/-- The `href` capture at the top of `do_inline`: the `href` attribute when
the looper's styled node is an `<a>` element, else none. -/
def inline_link (node : NodeType) : Option String :=
  match node with
  | NodeType.ElementNode tag_name attributes =>
    if tag_name == "a" then attrs_get attributes "href" else none
  | _ => none

/-- The body of `do_inline`'s per-word loop (state: the looper and the
accumulated `curr_text`): measure `" " ++ word`; if it no longer fits
(`current_end + w > extents.width`), flush the accumulated run as a
`RenderTextBox`, advance `current_bottom` and `extents.height` by the
line's height, vertically align and close the line, and carry `w` into the
fresh line; otherwise extend the run. -/
def do_inline_word (measure : Measure) (font_size : ℚ) (font_family : String)
    (font_weight : Int) (font_style : String) (line_height : ℚ) (color : Color)
    (link : Option String) (vertical_align : String)
    (st : Looper × String) (word : String) : Looper × String :=
  let looper := st.1
  let curr_text := st.2
  let word2 := " " ++ word
  let w := measure word2 font_size font_family font_weight font_style
  if looper.current_end + w > looper.extents.width then
    let bx := RenderInlineBoxType.Text
      { rect := { x := looper.current_start, y := looper.current_bottom,
                  width := looper.current_end - looper.current_start,
                  height := line_height }
        text := curr_text
        color := some color
        font_size := font_size
        font_family := font_family
        link := link
        font_weight := font_weight
        font_style := font_style
        valign := vertical_align }
    let looper := looper.add_box_to_current_line bx
    let curr_text2 := word2 ++ " "
    let looper := { looper with
      current_bottom := looper.current_bottom + looper.current.rect.height
      extents := { looper.extents with
        height := looper.extents.height + looper.current.rect.height } }
    let looper := looper.adjust_current_line_vertical
    let looper := looper.start_new_line
    let looper := { looper with current_end := looper.current_end + w }
    (looper, curr_text2)
  else
    ({ looper with current_end := looper.current_end + w }, curr_text ++ word2)

/-- The `NodeType::Text` arm of `do_inline`: resolve the text properties
from the looper's styled node, run the word loop, and flush the trailing
run as a final `RenderTextBox` on the current line. -/
def do_inline_text (measure : Measure) (looper : Looper) (txt : String) : Looper :=
  let link := inline_link looper.node
  let font_family := find_font_family looper.style_node looper.font_families
  let font_weight := looper.style_node.lookup_font_weight 400
  let font_size := looper.style_node.lookup_length_px "font-size" 10
  let font_style := looper.style_node.lookup_string "font-style" "normal"
  let vertical_align := looper.style_node.lookup_string "vertical-align" "baseline"
  let line_height := font_size * 2
  let color := looper.style_node.lookup_color "color" BLACK
  let st := (split_whitespace txt).foldl
    (do_inline_word measure font_size font_family font_weight font_style
      line_height color link vertical_align)
    (looper, "")
  let looper2 := st.1
  let bx := RenderInlineBoxType.Text
    { rect := { x := looper2.current_start, y := looper2.current_bottom,
                width := looper2.current_end - looper2.current_start,
                height := line_height }
      text := st.2
      color := some color
      font_size := font_size
      font_family := font_family
      link := link
      font_weight := font_weight
      font_style := font_style
      valign := vertical_align }
  looper2.add_box_to_current_line bx

/-- An inline subtree handed to `do_inline`: a text node, or an inline
element whose inline children are recursed into (the looper's styled node
stays the active style, exactly as in the source). -/
inductive InlineBox where
  | text (txt : String)
  | elem (children : List InlineBox)

mutual

/-- `LayoutBox::do_inline` from `layout.rs`: a text node runs the word
loop; an element recurses into its children with the same looper. -/
def do_inline (measure : Measure) (looper : Looper) : InlineBox → Looper
  | .text txt => do_inline_text measure looper txt
  | .elem children => do_inline_list measure looper children

/-- The `for ch in self.children` recursion of `do_inline`'s element arm. -/
def do_inline_list (measure : Measure) (looper : Looper) : List InlineBox → Looper
  | [] => looper
  | c :: rest => do_inline_list measure (do_inline measure looper c) rest

end

/-- Rust `str::parse::<u32>`: an optional `+` sign followed by one or more
digits, rejecting values outside `u32` range. -/
def parse_u32 (s : String) : Option Nat :=
  let s2 := if s.startsWith "+" then s.drop 1 else s
  if s2.length > 0 && s2.all Char.isDigit then
    let n := s2.foldl (fun a c => a * 10 + (c.toNat - 48)) 0
    if n < 4294967296 then some n else none
  else none

/-- The `<img>` attribute reads at the top of `do_inline_block`: `width`
and `height` default to 100 but a present attribute is parsed with an
unchecked `unwrap` (a panic, modelled as `Except.error`), and `src` is
read with an unchecked `unwrap` (panicking when absent). -/
def img_attrs (attributes : List (String × String)) :
    Except String (ℚ × ℚ × String) :=
  match
    (match attrs_get attributes "width" with
     | some s =>
       (match parse_u32 s with
        | some n => Except.ok (n : ℚ)
        | none => Except.error "panicked at calling unwrap on parse result")
     | none => Except.ok 100) with
  | Except.error e => Except.error e
  | Except.ok width =>
    match
      (match attrs_get attributes "height" with
       | some s =>
         (match parse_u32 s with
          | some n => Except.ok (n : ℚ)
          | none => Except.error "panicked at calling unwrap on parse result")
       | none => Except.ok 100) with
    | Except.error e => Except.error e
    | Except.ok height =>
      match attrs_get attributes "src" with
      | some src => Except.ok (width, height, src)
      | none => Except.error "panicked at calling unwrap on None"

/-- The image placement of `do_inline_block`: on a successful load emit a
`RenderImageBox` at the loaded size, on failure a `RenderErrorBox` at the
declared size; wrap to a new line first when the declared width does not
fit (`current_end + image_size.width > extents.width`), otherwise advance
`current_end`. -/
def do_inline_block_img (image_width image_height : ℚ)
    (load : Option LoadedImage) (valign : String) (looper : Looper) : Looper :=
  let bx :=
    match load with
    | some image =>
      RenderInlineBoxType.Image
        { rect := { x := looper.current_start, y := looper.current.rect.y,
                    width := image.width, height := image.height }
          image := image
          valign := valign }
    | none =>
      RenderInlineBoxType.Error
        { rect := { x := looper.current_start, y := looper.current.rect.y,
                    width := image_width, height := image_height }
          valign := valign }
  if looper.current_end + image_width > looper.extents.width then
    ((looper.adjust_current_line_vertical).start_new_line).add_box_to_current_line bx
  else
    ({ looper with current_end := looper.current_end + image_width }).add_box_to_current_line bx

/-- The three assignments after `layout_block` in the `<button>` arm of
`do_inline_block`: `block.rect.x = looper.current_start`,
`block.rect.y = looper.current.rect.y`, `block.valign = …`. -/
def RenderBlockBox.with_position_valign (b : RenderBlockBox) (x y : ℚ)
    (v : String) : RenderBlockBox :=
  match b with
  | RenderBlockBox.mk t r m p bg bc bw _ cs =>
    RenderBlockBox.mk t { r with x := x, y := y } m p bg bc bw v cs

/-- The `<button>` arm of `do_inline_block` (`layout.rs:545-579`): measure
the single text child with the element's font (family hard-coded to
`"sans-serif"`), advance `current_end` by that width **with no wrap
check**, and add the block fragment — repositioned to
`(current_start, current.rect.y)` and given the element's `vertical-align`
— to the current line.  `block` is the result of the recursive
`layout_block` call against the hard-coded 50px containing block (the
block-width solver of that call is `calculate_block_width` above); a
missing or non-text first child panics (`Except.error`). -/
def do_inline_block_button (measure : Measure) (sty : Style)
    (children_head : Option NodeType) (block : RenderBlockBox)
    (looper : Looper) : Except String Looper :=
  let font_family := "sans-serif"
  let font_weight := sty.lookup_font_weight 400
  let font_size := sty.lookup_length_px "font-size" 10
  let font_style := sty.lookup_string "font-style" "normal"
  match children_head with
  | some (NodeType.TextNode text) =>
    let w := measure text font_size font_family font_weight font_style
    let looper := { looper with current_end := looper.current_end + w }
    let block2 := block.with_position_valign looper.current_start
      looper.current.rect.y (sty.lookup_string "vertical-align" "baseline")
    Except.ok (looper.add_box_to_current_line (RenderInlineBoxType.Block block2))
  | _ => Except.error "panicked: cant do inline block layout if child isnt text"

/-- `LayoutBox::do_inline_block` from `layout.rs`: dispatch on the
element's tag name — `<img>` reads the attributes (panicking paths
included), attempts the external image load and places the resulting
fragment (`valign` looked up on the element's own styled node); `<button>`
runs the button arm and returns early; any other tag panics. -/
def do_inline_block (measure : Measure)
    (load_image : String → Option LoadedImage) (style : Style)
    (tag_name : String) (attributes : List (String × String))
    (children_head : Option NodeType) (block : RenderBlockBox)
    (looper : Looper) : Except String Looper :=
  if tag_name = "img" then
    match img_attrs attributes with
    | Except.error e => Except.error e
    | Except.ok (w, h, src) =>
      Except.ok (do_inline_block_img w h (load_image src)
        (style.lookup_string "vertical-align" "baseline") looper)
  else if tag_name = "button" then
    do_inline_block_button measure style children_head block looper
  else
    Except.error "panicked: We dont handle inline-block on non-images yet"

/-- A child of an anonymous block handed to the inline formatter: an
`InlineNode` subtree, or an `InlineBlockNode` element with its own styled
declarations, tag name, attribute map and first DOM child; `block` stands
for the render block the recursive `layout_block` call produces for the
subtree (only the `<button>` arm consumes it). -/
inductive AnonChild where
  | inline (tree : InlineBox)
  | inlineBlock (style : Style) (tag_name : String)
      (attributes : List (String × String)) (children_head : Option NodeType)
      (block : RenderBlockBox)

/-- Whether an anonymous-block child is an inline-block `<button>`
element. -/
def AnonChild.is_button : AnonChild → Bool
  | AnonChild.inlineBlock _ tag_name _ _ _ => tag_name == "button"
  | _ => false

/-- The `for child in self.children` loop of `layout_anonymous_2`. -/
def layout_anon_children (measure : Measure)
    (load_image : String → Option LoadedImage) :
    Looper → List AnonChild → Except String Looper
  | l, [] => Except.ok l
  | l, c :: rest =>
    match
      (match c with
       | AnonChild.inline tree => Except.ok (do_inline measure l tree)
       | AnonChild.inlineBlock style tag_name attributes children_head block =>
         do_inline_block measure load_image style tag_name attributes
           children_head block l) with
    | Except.error e => Except.error e
    | Except.ok l2 => layout_anon_children measure load_image l2 rest

/-- `LayoutBox::layout_anonymous_2` from `layout.rs`: run the looper over
the children starting at `(content.x, content.y + content.height)` with the
containing width, then align and push the final line; the anonymous box's
rect is the looper's extents, and the box's new content rect takes the
extents' y/width and height `current_bottom − extents.y`. -/
def layout_anonymous_2 (measure : Measure)
    (load_image : String → Option LoadedImage) (style_node : Style)
    (node : NodeType) (font_families : List String) (dim : Dimensions)
    (children : List AnonChild) : Except String (RenderAnonymousBox × Rect) :=
  let looper0 : Looper :=
    { lines := []
      current := RenderLineBox.mk
        ⟨dim.content.x, dim.content.y + dim.content.height, dim.content.width, 0⟩ [] 0
      extents := ⟨dim.content.x, dim.content.y + dim.content.height, dim.content.width, 0⟩
      current_start := dim.content.x
      current_end := dim.content.x
      current_bottom := dim.content.y + dim.content.height
      style_node := style_node
      node := node
      font_families := font_families }
  match layout_anon_children measure load_image looper0 children with
  | Except.error e => Except.error e
  | Except.ok looper1 =>
    let looper2 := looper1.adjust_current_line_vertical
    let old := looper2.current
    let looper3 := { looper2 with
      current_bottom := looper2.current_bottom + old.rect.height
      extents := { looper2.extents with
        height := looper2.extents.height + old.rect.height }
      lines := looper2.lines ++ [old] }
    Except.ok (RenderAnonymousBox.mk looper3.extents looper3.lines,
      ⟨dim.content.x, looper3.extents.y, looper3.extents.width,
        looper3.current_bottom - looper3.extents.y⟩)

/-! ## Inline-formatter invariants (claims C2 and C4) -/
/-- The measured width of one word as `do_inline` measures it: a leading
space is prepended and the text properties come from the inline context's
styled node. -/
def word_width (measure : Measure) (style : Style) (fonts : List String)
    (word : String) : ℚ :=
  measure (" " ++ word) (style.lookup_length_px "font-size" 10)
    (find_font_family style fonts) (style.lookup_font_weight 400)
    (style.lookup_string "font-style" "normal")

mutual

/-- All words of an inline subtree, in processing order. -/
def inline_words : InlineBox → List String
  | .text txt => split_whitespace txt
  | .elem children => inline_words_list children

/-- All words of a list of inline subtrees. -/
def inline_words_list : List InlineBox → List String
  | [] => []
  | c :: rest => inline_words c ++ inline_words_list rest

end

/-- All words processed while laying the given anonymous-block children
out. -/
def anon_words : List AnonChild → List String
  | [] => []
  | AnonChild.inline tree :: rest => inline_words tree ++ anon_words rest
  | AnonChild.inlineBlock _ _ _ _ _ :: rest => anon_words rest

/-- Every text fragment in the list ends at or before the x-coordinate
`b`. -/
def frags_right_ok (b : ℚ) (cs : List RenderInlineBoxType) : Prop :=
  ∀ frag ∈ cs, ∀ t : RenderTextBox, frag = RenderInlineBoxType.Text t →
    t.rect.x + t.rect.width ≤ b

/-- The looper invariant behind claim C2: the extents' x/width are pinned,
the x-advance cursor never passes `x + W`, the styled node and font cache
are pinned, and every text fragment emitted so far ends at or before
`x + W`. -/
def looper_right_inv (style : Style) (fonts : List String) (x W : ℚ)
    (l : Looper) : Prop :=
  l.extents.x = x ∧ l.extents.width = W ∧ l.current_end ≤ x + W ∧
  l.style_node = style ∧ l.font_families = fonts ∧
  (∀ line ∈ l.lines, frags_right_ok (x + W) line.children) ∧
  frags_right_ok (x + W) l.current.children

/-- C2 counterexample data: the text fragment produced for the single word
`"hi"` measuring 3px in a 10px-wide context rooted at the origin. -/
def c2WitnessText : RenderTextBox :=
  { rect := ⟨0, -10, 3, 20⟩
    text := " hi"
    color := some BLACK
    font_size := 10
    font_family := "sans-serif"
    link := none
    font_weight := 400
    font_style := "normal"
    valign := "baseline" }

/-- The single line box of the C2 witness scenario. -/
def c2WitnessLine : RenderLineBox :=
  RenderLineBox.mk ⟨0, 0, 10, 20⟩ [RenderInlineBoxType.Text c2WitnessText] 0

/-- The anonymous box of the C2 witness scenario. -/
def c2WitnessAnon : RenderAnonymousBox :=
  RenderAnonymousBox.mk ⟨0, 0, 10, 20⟩ [c2WitnessLine]

/-- C2 button-counterexample data: a text measurer giving the button text
`"btn"` width 15 and every other string width 3. -/
def c2ButtonMeasure : Measure :=
  fun t _ _ _ _ => if t == "btn" then (15 : ℚ) else 3

/-- C2 button-counterexample data: an inline-block `<button>` whose child
is the text `"btn"`, followed by the inline text `"hi"`. -/
def c2ButtonChildren : List AnonChild :=
  [AnonChild.inlineBlock ([] : Style) "button" [] (some (NodeType.TextNode "btn"))
     (RenderBlockBox.mk "button" ⟨0, 0, 50, 0⟩ ⟨0, 0, 0, 0⟩ ⟨0, 0, 0, 0⟩
       none none ⟨0, 0, 0, 0⟩ "baseline" []),
   AnonChild.inline (InlineBox.text "hi")]

/-- The looper invariant behind claim C4: every line's rect height equals
the max-fold (from 0) of its children's rect heights. -/
def looper_height_inv (l : Looper) : Prop :=
  (∀ line ∈ l.lines, line.rect.height =
    (line.children.map (fun c => c.rect.height)).foldl max 0) ∧
  l.current.rect.height =
    (l.current.children.map (fun c => c.rect.height)).foldl max 0

/-! ## Vertical alignment (claim C5) -/
/-- A one-fragment looper used to compare vertical-alignment keywords: the
current line is 20px tall at the origin holding a single 5px-tall text
fragment with the given `vertical-align`. -/
def c5Looper (va : String) : Looper :=
  { lines := []
    current := RenderLineBox.mk ⟨0, 0, 20, 20⟩
      [RenderInlineBoxType.Text
        { rect := ⟨0, 0, 5, 5⟩
          text := "x"
          color := none
          font_size := 10
          font_family := "sans-serif"
          link := none
          font_weight := 400
          font_style := "normal"
          valign := va }] 0
    extents := ⟨0, 0, 20, 20⟩
    current_start := 0
    current_end := 0
    current_bottom := 0
    style_node := []
    node := NodeType.Meta
    font_families := [] }

/-! ## Table-row layout (claim C6) -/
/-- The kind of a `LayoutBox` child of a table row, as the `match` in
`layout_table_row` distinguishes them: a `TableCellNode`, an
`AnonymousBlock`, or anything else. -/
inductive RowChild where
  | cell
  | anonymous
  | other
deriving DecidableEq, Repr

/-- The cell-counting loop at the top of `layout_table_row`. -/
def count_cells : List RowChild → Nat
  | [] => 0
  | RowChild.cell :: rest => count_cells rest + 1
  | _ :: rest => count_cells rest

/-- The cell loop of `layout_table_row`: `index` advances for **every**
child (the `index += 1` sits outside the `match`), and each cell child gets
a containing block at `content.x + child_width * index`. -/
def layout_table_row_go (content : Rect) (child_width : ℚ) :
    Nat → List RowChild → List Rect
  | _, [] => []
  | index, RowChild.cell :: rest =>
    { x := content.x + child_width * (index : ℚ), y := content.y,
      width := child_width, height := 0 } ::
      layout_table_row_go content child_width (index + 1) rest
  | index, _ :: rest => layout_table_row_go content child_width (index + 1) rest

/-- `LayoutBox::layout_table_row` from `layout.rs`, modelled from the point
where the row's content rect has been resolved by `calculate_block_width`
and `calculate_block_position`: the content height is set to the fixed 50,
and each `TableCellNode` child is laid out against a containing block of
width `content.width / count` at the per-child index.  The result is the
row's final content rect and the cells' containing-block content rects.
(In the rational model a division by a zero cell count yields 0, standing
in for the f32 infinity of the source; the claims only concern rows with
cells.) -/
def layout_table_row (content : Rect) (children : List RowChild) :
    Rect × List Rect :=
  let content2 := { content with height := (50 : ℚ) }
  let count := count_cells children
  let child_width := content2.width / (count : ℚ)
  (content2, layout_table_row_go content2 child_width 0 children)

/-! ## Hit testing (claim C7) -/
/-- `QueryResult` from `layout.rs` (the borrow is modelled by value). -/
inductive QueryResult where
  | Text (t : RenderTextBox)
  | None
deriving DecidableEq, Repr

/-- `QueryResult::is_none` from `layout.rs`. -/
def QueryResult.is_none : QueryResult → Bool
  | QueryResult.None => true
  | _ => false

/-- `RenderTextBox::find_box_containing` from `layout.rs`: the box itself
when its rect contains the point. -/
def RenderTextBox.find_box_containing (t : RenderTextBox) (x y : ℚ) : QueryResult :=
  if t.rect.contains x y then QueryResult.Text t else QueryResult.None

mutual

/-- `RenderBox::find_box_containing` from `layout.rs`: dispatch to blocks
and anonymous boxes; `Inline()` and `InlineBlock()` stubs answer `None`. -/
def RenderBox.find_box_containing : RenderBox → ℚ → ℚ → QueryResult
  | RenderBox.Block bx, x, y => bx.find_box_containing x y
  | RenderBox.Anonymous bx, x, y => bx.find_box_containing x y
  | RenderBox.Inline, _, _ => QueryResult.None
  | RenderBox.InlineBlock, _, _ => QueryResult.None

/-- `RenderBlockBox::find_box_containing` from `layout.rs`. -/
def RenderBlockBox.find_box_containing : RenderBlockBox → ℚ → ℚ → QueryResult
  | RenderBlockBox.mk _ _ _ _ _ _ _ _ children, x, y =>
    find_in_block_children children x y

/-- The child loop of `RenderBlockBox::find_box_containing`: the first
non-`None` child answer. -/
def find_in_block_children : List RenderBox → ℚ → ℚ → QueryResult
  | [], _, _ => QueryResult.None
  | c :: rest, x, y =>
    let res := c.find_box_containing x y
    if res.is_none then find_in_block_children rest x y else res

/-- `RenderAnonymousBox::find_box_containing` from `layout.rs`. -/
def RenderAnonymousBox.find_box_containing : RenderAnonymousBox → ℚ → ℚ → QueryResult
  | RenderAnonymousBox.mk _ children, x, y => find_in_anon_children children x y

/-- The line loop of `RenderAnonymousBox::find_box_containing`. -/
def find_in_anon_children : List RenderLineBox → ℚ → ℚ → QueryResult
  | [], _, _ => QueryResult.None
  | c :: rest, x, y =>
    let res := c.find_box_containing x y
    if res.is_none then find_in_anon_children rest x y else res

/-- `RenderLineBox::find_box_containing` from `layout.rs`. -/
def RenderLineBox.find_box_containing : RenderLineBox → ℚ → ℚ → QueryResult
  | RenderLineBox.mk _ children _, x, y => find_in_line_children children x y

/-- The fragment loop of `RenderLineBox::find_box_containing`: only `Text`
fragments are consulted; `Image`, `Block` and `Error` fragments answer
`None` (their subtrees are not searched). -/
def find_in_line_children : List RenderInlineBoxType → ℚ → ℚ → QueryResult
  | [], _, _ => QueryResult.None
  | c :: rest, x, y =>
    let res :=
      match c with
      | RenderInlineBoxType.Text node => node.find_box_containing x y
      | _ => QueryResult.None
    if res.is_none then find_in_line_children rest x y else res

end

mutual

/-- The text boxes `find_box_containing` can reach, in depth-first
pre-order (inline `Block`/`Image`/`Error` fragments are opaque). -/
def reach_box : RenderBox → List RenderTextBox
  | RenderBox.Block bx => reach_block bx
  | RenderBox.Anonymous bx => reach_anon bx
  | RenderBox.Inline => []
  | RenderBox.InlineBlock => []

/-- Reachable text boxes of a block box. -/
def reach_block : RenderBlockBox → List RenderTextBox
  | RenderBlockBox.mk _ _ _ _ _ _ _ _ children => reach_box_list children

/-- Reachable text boxes of a list of render boxes. -/
def reach_box_list : List RenderBox → List RenderTextBox
  | [] => []
  | c :: rest => reach_box c ++ reach_box_list rest

/-- Reachable text boxes of an anonymous box. -/
def reach_anon : RenderAnonymousBox → List RenderTextBox
  | RenderAnonymousBox.mk _ children => reach_line_list children

/-- Reachable text boxes of a list of line boxes. -/
def reach_line_list : List RenderLineBox → List RenderTextBox
  | [] => []
  | c :: rest => reach_line c ++ reach_line_list rest

/-- Reachable text boxes of a line box. -/
def reach_line : RenderLineBox → List RenderTextBox
  | RenderLineBox.mk _ children _ => reach_inline_list children

/-- Reachable text boxes of a list of inline fragments: only the `Text`
fragments themselves. -/
def reach_inline_list : List RenderInlineBoxType → List RenderTextBox
  | [] => []
  | RenderInlineBoxType.Text t :: rest => t :: reach_inline_list rest
  | _ :: rest => reach_inline_list rest

end

mutual

/-- All text boxes of the render tree in depth-first pre-order, including
those inside inline `Block` fragments (the spec's reading of the
traversal). -/
def all_text_boxes : RenderBox → List RenderTextBox
  | RenderBox.Block bx => all_text_block bx
  | RenderBox.Anonymous bx => all_text_anon bx
  | RenderBox.Inline => []
  | RenderBox.InlineBlock => []

/-- All text boxes under a block box. -/
def all_text_block : RenderBlockBox → List RenderTextBox
  | RenderBlockBox.mk _ _ _ _ _ _ _ _ children => all_text_box_list children

/-- All text boxes under a list of render boxes. -/
def all_text_box_list : List RenderBox → List RenderTextBox
  | [] => []
  | c :: rest => all_text_boxes c ++ all_text_box_list rest

/-- All text boxes under an anonymous box. -/
def all_text_anon : RenderAnonymousBox → List RenderTextBox
  | RenderAnonymousBox.mk _ children => all_text_line_list children

/-- All text boxes under a list of line boxes. -/
def all_text_line_list : List RenderLineBox → List RenderTextBox
  | [] => []
  | c :: rest => all_text_line c ++ all_text_line_list rest

/-- All text boxes under a line box. -/
def all_text_line : RenderLineBox → List RenderTextBox
  | RenderLineBox.mk _ children _ => all_text_inline_list children

/-- All text boxes under a list of inline fragments, descending into
inline `Block` fragments. -/
def all_text_inline_list : List RenderInlineBoxType → List RenderTextBox
  | [] => []
  | RenderInlineBoxType.Text t :: rest => t :: all_text_inline_list rest
  | RenderInlineBoxType.Block b :: rest => all_text_block b ++ all_text_inline_list rest
  | _ :: rest => all_text_inline_list rest

end

/-- The first text box of the list whose rect contains the point, as a
`QueryResult`. -/
def first_containing (ts : List RenderTextBox) (x y : ℚ) : QueryResult :=
  match ts.find? (fun t => t.rect.contains x y) with
  | some t => QueryResult.Text t
  | none => QueryResult.None

/-- The text box nested inside an inline `Block` fragment of the C7
counterexample tree. -/
def c7TextInner : RenderTextBox :=
  { rect := ⟨0, 0, 5, 5⟩
    text := "inner"
    color := none
    font_size := 10
    font_family := "sans-serif"
    link := none
    font_weight := 400
    font_style := "normal"
    valign := "baseline" }

/-- A render tree whose only text box sits inside an inline `Block`
fragment (as a laid-out `<button>` produces). -/
def c7Tree : RenderBox :=
  RenderBox.Block (RenderBlockBox.mk "body" ⟨0, 0, 9, 9⟩ default default none none
    default "baseline"
    [RenderBox.Anonymous (RenderAnonymousBox.mk ⟨0, 0, 9, 9⟩
      [RenderLineBox.mk ⟨0, 0, 9, 9⟩
        [RenderInlineBoxType.Block (RenderBlockBox.mk "button" ⟨0, 0, 5, 5⟩ default
          default none none default "baseline"
          [RenderBox.Anonymous (RenderAnonymousBox.mk ⟨0, 0, 5, 5⟩
            [RenderLineBox.mk ⟨0, 0, 5, 5⟩
              [RenderInlineBoxType.Text c7TextInner] 0])])] 0])])

/-! ## Font-family resolution (claim C8) -/
/-- The family name carried by a scannable font-stack entry (string
literals and keywords only). -/
def font_atom_name : ValueAtom → Option String
  | ValueAtom.StringLiteral s => some s
  | ValueAtom.Keyword s => some s
  | _ => none

/-! ## Width-constraint lemmas (claims C1 and C3) -/
theorem length_to_px_auto (style : Style) : length_to_px style autoV = 0 := rfl

theorem length_to_px_px_unit (style : Style) (v : ℚ) :
    length_to_px style (Value.Length v CSSUnit.Px) = v := rfl

theorem cbw_total_eq_px_sum (style : Style) (i : CBWInputs) :
    cbw_total style i = cbw_px_sum style i := by
  simp [cbw_total, cbw_px_sum, sum, List.foldl]

/-- Forcing auto margins to `Length(0, Px)` does not change any px
contribution. -/
theorem cbw_prestep_px_sum (style : Style) (cw : ℚ) (i : CBWInputs) :
    cbw_px_sum style (cbw_prestep style cw i) = cbw_px_sum style i := by
  obtain ⟨w, ml, mr, bl, br, pl, pr⟩ := i
  unfold cbw_prestep
  split
  · by_cases h1 : ml = autoV <;> by_cases h2 : mr = autoV <;>
      simp [cbw_px_sum, h1, h2, length_to_px_auto, length_to_px_px_unit]
  · rfl

/-- Every arm of the auto-case match increases the total px width by exactly
`underflow`. -/
theorem cbw_solve_px_sum (style : Style) (u : ℚ) (i : CBWInputs) :
    cbw_px_sum style (cbw_solve style u i) = cbw_px_sum style i + u := by
  obtain ⟨w, ml, mr, bl, br, pl, pr⟩ := i
  unfold cbw_solve
  split
  · rename (w == autoV, ml == autoV, mr == autoV) = (false, false, false) => h
    simp only [Prod.mk.injEq, beq_eq_false_iff_ne, ne_eq] at h
    simp [cbw_px_sum, length_to_px_px_unit]
    ring
  · rename (w == autoV, ml == autoV, mr == autoV) = (false, false, true) => h
    simp only [Prod.mk.injEq, beq_eq_false_iff_ne, beq_iff_eq, ne_eq] at h
    simp [cbw_px_sum, h.2.2, length_to_px_auto, length_to_px_px_unit]
    ring
  · rename (w == autoV, ml == autoV, mr == autoV) = (false, true, false) => h
    simp only [Prod.mk.injEq, beq_eq_false_iff_ne, beq_iff_eq, ne_eq] at h
    simp [cbw_px_sum, h.2.1, length_to_px_auto, length_to_px_px_unit]
    ring
  · rename (w == autoV, ml == autoV, mr == autoV) = (true, _, _) => h
    simp only [Prod.mk.injEq, beq_iff_eq] at h
    by_cases h1 : ml = autoV <;> by_cases h2 : mr = autoV <;>
      by_cases h3 : u ≥ 0 <;>
      simp [cbw_px_sum, h.1, h1, h2, h3, length_to_px_auto, length_to_px_px_unit] <;>
      ring
  · rename (w == autoV, ml == autoV, mr == autoV) = (false, true, true) => h
    simp only [Prod.mk.injEq, beq_eq_false_iff_ne, beq_iff_eq, ne_eq] at h
    simp [cbw_px_sum, h.2.1, h.2.2, length_to_px_auto, length_to_px_px_unit]
    ring

/-- C1: For every block-level box laid out in normal flow, after
`calculate_block_width` the used horizontal values satisfy
`margin.left + border.left + padding.left + content.width + padding.right +
border.right + margin.right = containing block content.width`; the equality
is exact in the rational model, hence in particular within 0.5 px. -/
theorem C1_block_width_constraint (style : Style) (cw : ℚ) :
    (calculate_block_width style cw).margin_left +
      (calculate_block_width style cw).border_left +
      (calculate_block_width style cw).padding_left +
      (calculate_block_width style cw).width +
      (calculate_block_width style cw).padding_right +
      (calculate_block_width style cw).border_right +
      (calculate_block_width style cw).margin_right = cw ∧
    |(calculate_block_width style cw).margin_left +
      (calculate_block_width style cw).border_left +
      (calculate_block_width style cw).padding_left +
      (calculate_block_width style cw).width +
      (calculate_block_width style cw).padding_right +
      (calculate_block_width style cw).border_right +
      (calculate_block_width style cw).margin_right - cw| ≤ 1/2 := by
  have key :
      (calculate_block_width style cw).margin_left +
        (calculate_block_width style cw).border_left +
        (calculate_block_width style cw).padding_left +
        (calculate_block_width style cw).width +
        (calculate_block_width style cw).padding_right +
        (calculate_block_width style cw).border_right +
        (calculate_block_width style cw).margin_right = cw := by
    have h1 := cbw_solve_px_sum style (cw - cbw_total style (cbw_lookups style cw))
      (cbw_prestep style cw (cbw_lookups style cw))
    have h0 := cbw_prestep_px_sum style cw (cbw_lookups style cw)
    have h2 := cbw_total_eq_px_sum style (cbw_lookups style cw)
    have hsum :
        (calculate_block_width style cw).margin_left +
          (calculate_block_width style cw).border_left +
          (calculate_block_width style cw).padding_left +
          (calculate_block_width style cw).width +
          (calculate_block_width style cw).padding_right +
          (calculate_block_width style cw).border_right +
          (calculate_block_width style cw).margin_right =
        cbw_px_sum style (cbw_solve style (cw - cbw_total style (cbw_lookups style cw))
          (cbw_prestep style cw (cbw_lookups style cw))) := by
      simp [calculate_block_width, cbw_px_sum]
      ring
    rw [hsum, h1, h0, ← h2]
    ring
  refine ⟨key, ?_⟩
  rw [key]
  simp

/-- C3: `calculate_block_width` resolves the auto cases exactly per the
table: with the pre-stepped inputs `i1 = cbw_prestep (cbw_lookups …)` and
`underflow = containing width − total`, (a) width not auto and both margins
auto gives each margin `underflow/2`; (b) width auto zeroes auto margins and
sets `width = underflow` when `underflow ≥ 0`, else `width = 0` and
margin-right is increased by `underflow`; (c) none auto increases
margin-right by `underflow`; (d) beforehand, if width is not auto and the
fixed contributions overflow the container, auto margins are forced to 0. -/
theorem C3_auto_case_table (style : Style) (cw : ℚ) :
    ((cbw_prestep style cw (cbw_lookups style cw)).width ≠ autoV ∧
     (cbw_prestep style cw (cbw_lookups style cw)).margin_left = autoV ∧
     (cbw_prestep style cw (cbw_lookups style cw)).margin_right = autoV →
      (calculate_block_width style cw).margin_left =
        (cw - cbw_total style (cbw_lookups style cw)) / 2 ∧
      (calculate_block_width style cw).margin_right =
        (cw - cbw_total style (cbw_lookups style cw)) / 2) ∧
    ((cbw_prestep style cw (cbw_lookups style cw)).width = autoV →
      ((cbw_prestep style cw (cbw_lookups style cw)).margin_left = autoV →
        (calculate_block_width style cw).margin_left = 0) ∧
      (0 ≤ cw - cbw_total style (cbw_lookups style cw) →
        (calculate_block_width style cw).width =
          cw - cbw_total style (cbw_lookups style cw) ∧
        ((cbw_prestep style cw (cbw_lookups style cw)).margin_right = autoV →
          (calculate_block_width style cw).margin_right = 0)) ∧
      (cw - cbw_total style (cbw_lookups style cw) < 0 →
        (calculate_block_width style cw).width = 0 ∧
        (calculate_block_width style cw).margin_right =
          (if (cbw_prestep style cw (cbw_lookups style cw)).margin_right = autoV then 0
           else length_to_px style (cbw_prestep style cw (cbw_lookups style cw)).margin_right) +
          (cw - cbw_total style (cbw_lookups style cw)))) ∧
    ((cbw_prestep style cw (cbw_lookups style cw)).width ≠ autoV ∧
     (cbw_prestep style cw (cbw_lookups style cw)).margin_left ≠ autoV ∧
     (cbw_prestep style cw (cbw_lookups style cw)).margin_right ≠ autoV →
      (calculate_block_width style cw).margin_right =
        length_to_px style (cbw_prestep style cw (cbw_lookups style cw)).margin_right +
          (cw - cbw_total style (cbw_lookups style cw)) ∧
      (calculate_block_width style cw).margin_left =
        length_to_px style (cbw_prestep style cw (cbw_lookups style cw)).margin_left ∧
      (calculate_block_width style cw).width =
        length_to_px style (cbw_prestep style cw (cbw_lookups style cw)).width) ∧
    ((cbw_lookups style cw).width ≠ autoV ∧
       cbw_total style (cbw_lookups style cw) > cw →
      ((cbw_lookups style cw).margin_left = autoV →
        (cbw_prestep style cw (cbw_lookups style cw)).margin_left =
          Value.Length 0 CSSUnit.Px) ∧
      ((cbw_lookups style cw).margin_right = autoV →
        (cbw_prestep style cw (cbw_lookups style cw)).margin_right =
          Value.Length 0 CSSUnit.Px) ∧
      (cbw_prestep style cw (cbw_lookups style cw)).margin_left ≠ autoV ∧
      (cbw_prestep style cw (cbw_lookups style cw)).margin_right ≠ autoV) := by
  refine ⟨?_, ?_, ?_, ?_⟩
  · rintro ⟨hw, hl, hr⟩
    simp only [calculate_block_width]
    unfold cbw_solve
    split <;>
      simp_all [Prod.mk.injEq, beq_iff_eq, length_to_px_px_unit]
  · intro hw
    refine ⟨?_, ?_, ?_⟩
    · intro hl
      simp only [calculate_block_width]
      unfold cbw_solve
      split <;> simp_all [Prod.mk.injEq, beq_iff_eq, length_to_px_px_unit]
      (try split) <;> simp_all [length_to_px_px_unit, length_to_px_auto]
    · intro hu
      refine ⟨?_, ?_⟩
      · simp only [calculate_block_width]
        unfold cbw_solve
        split <;>
          simp_all [Prod.mk.injEq, beq_iff_eq, length_to_px_px_unit, hu]
      · intro hr
        simp only [calculate_block_width]
        unfold cbw_solve
        split <;>
          simp_all [Prod.mk.injEq, beq_iff_eq, length_to_px_px_unit, length_to_px_auto, hu]
    · intro hu
      have hu' : ¬ (0 ≤ cw - cbw_total style (cbw_lookups style cw)) := not_le.mpr hu
      by_cases hr : (cbw_prestep style cw (cbw_lookups style cw)).margin_right = autoV <;>
        simp only [calculate_block_width] <;>
        unfold cbw_solve <;>
        split <;>
        simp_all [Prod.mk.injEq, beq_iff_eq, beq_eq_false_iff_ne, length_to_px_px_unit,
          length_to_px_auto, hu', not_le.mpr hu]
      rename_i fst snd heq
      obtain ⟨h1, h2⟩ := heq
      rw [beq_eq_false_iff_ne.mpr hr] at h2
      subst h2
      simp
  · rintro ⟨hw, hl, hr⟩
    simp only [calculate_block_width]
    unfold cbw_solve
    split <;>
      simp_all [Prod.mk.injEq, beq_iff_eq, length_to_px_px_unit]
  · rintro ⟨hw, ht⟩
    unfold cbw_prestep
    simp only [hw, ht]
    by_cases hl : (cbw_lookups style cw).margin_left = autoV <;>
      by_cases hr : (cbw_lookups style cw).margin_right = autoV <;>
      simp_all [autoV]

/-- Witness for C3: a 100px-wide box with `margin: auto` in a 200px
container gets 50px on each side. -/
theorem C3_auto_case_table_witness :
    (calculate_block_width
        [("width", Value.Length 100 CSSUnit.Px), ("margin", autoV)] 200).margin_left =
      (200 - cbw_total [("width", Value.Length 100 CSSUnit.Px), ("margin", autoV)]
        (cbw_lookups [("width", Value.Length 100 CSSUnit.Px), ("margin", autoV)] 200)) / 2 ∧
    (calculate_block_width
        [("width", Value.Length 100 CSSUnit.Px), ("margin", autoV)] 200).margin_right =
      (200 - cbw_total [("width", Value.Length 100 CSSUnit.Px), ("margin", autoV)]
        (cbw_lookups [("width", Value.Length 100 CSSUnit.Px), ("margin", autoV)] 200)) / 2 :=
  (C3_auto_case_table [("width", Value.Length 100 CSSUnit.Px), ("margin", autoV)] 200).1
    ⟨by with_unfolding_all decide, by with_unfolding_all decide, by with_unfolding_all decide⟩

/-- `set_rect_y` never changes a fragment's kind, x, width or height. -/
theorem set_rect_y_text (bx : RenderInlineBoxType) (y : ℚ) (t : RenderTextBox)
    (h : bx.set_rect_y y = RenderInlineBoxType.Text t) :
    ∃ t0, bx = RenderInlineBoxType.Text t0 ∧ t.rect.x = t0.rect.x ∧
      t.rect.width = t0.rect.width ∧ t.rect.height = t0.rect.height := by
  cases bx with
  | Text t0 =>
    simp [RenderInlineBoxType.set_rect_y] at h
    exact ⟨t0, rfl, by rw [← h], by rw [← h], by rw [← h]⟩
  | Image i => simp [RenderInlineBoxType.set_rect_y] at h
  | Block b => cases b; simp [RenderInlineBoxType.set_rect_y] at h
  | Error e => simp [RenderInlineBoxType.set_rect_y] at h

/-- `set_rect_y` preserves a fragment's rect height. -/
theorem set_rect_y_height (bx : RenderInlineBoxType) (y : ℚ) :
    (bx.set_rect_y y).rect.height = bx.rect.height := by
  cases bx with
  | Block b =>
    cases b
    simp [RenderInlineBoxType.set_rect_y, RenderInlineBoxType.rect, RenderBlockBox.rect]
  | _ => simp [RenderInlineBoxType.set_rect_y, RenderInlineBoxType.rect]

/-- Re-aiming every fragment's y preserves `frags_right_ok`. -/
theorem frags_right_ok_map_set_y (b : ℚ) (cs : List RenderInlineBoxType)
    (f : RenderInlineBoxType → ℚ) (h : frags_right_ok b cs) :
    frags_right_ok b (cs.map (fun ch => ch.set_rect_y (f ch))) := by
  intro frag hmem t ht
  rw [List.mem_map] at hmem
  obtain ⟨ch, hch, rfl⟩ := hmem
  obtain ⟨t0, hch0, hx, hw, -⟩ := set_rect_y_text ch (f ch) t ht
  rw [hx, hw]
  exact h ch hch t0 hch0

/-- `add_box_to_current_line` preserves the C2 invariant when the new
fragment is right-bounded. -/
theorem add_box_right_inv (style : Style) (fonts : List String) (x W : ℚ)
    (l : Looper) (bx : RenderInlineBoxType)
    (ht : looper_right_inv style fonts x W l)
    (hb : ∀ t : RenderTextBox, bx = RenderInlineBoxType.Text t →
      t.rect.x + t.rect.width ≤ x + W) :
    looper_right_inv style fonts x W (l.add_box_to_current_line bx) := by
  obtain ⟨h1, h2, h3, h4, h5, h6, h7⟩ := ht
  refine ⟨h1, h2, h3, h4, h5, h6, ?_⟩
  intro frag hmem t htx
  simp only [Looper.add_box_to_current_line, RenderLineBox.children] at hmem
  rw [List.mem_append] at hmem
  rcases hmem with hmem | hmem
  · exact h7 frag hmem t htx
  · rw [List.mem_singleton] at hmem
    subst hmem
    exact hb t htx

/-- `start_new_line` preserves the C2 invariant (the fresh cursor sits at
`extents.x ≤ x + W` because the width is nonnegative). -/
theorem start_new_line_right_inv (style : Style) (fonts : List String) (x W : ℚ)
    (l : Looper) (hW : 0 ≤ W) (ht : looper_right_inv style fonts x W l) :
    looper_right_inv style fonts x W l.start_new_line := by
  obtain ⟨h1, h2, h3, h4, h5, h6, h7⟩ := ht
  refine ⟨h1, h2, ?_, h4, h5, ?_, ?_⟩
  · simp only [Looper.start_new_line, h1]
    linarith
  · intro line hmem
    simp only [Looper.start_new_line] at hmem
    rw [List.mem_append] at hmem
    rcases hmem with hmem | hmem
    · exact h6 line hmem
    · rw [List.mem_singleton] at hmem
      subst hmem
      exact h7
  · intro frag hmem t htx
    simp only [Looper.start_new_line, RenderLineBox.children] at hmem
    simp at hmem

/-- `adjust_current_line_vertical` preserves the C2 invariant. -/
theorem adjust_right_inv (style : Style) (fonts : List String) (x W : ℚ)
    (l : Looper) (ht : looper_right_inv style fonts x W l) :
    looper_right_inv style fonts x W l.adjust_current_line_vertical := by
  obtain ⟨h1, h2, h3, h4, h5, h6, h7⟩ := ht
  refine ⟨h1, h2, h3, h4, h5, h6, ?_⟩
  simp only [Looper.adjust_current_line_vertical, RenderLineBox.children]
  exact frags_right_ok_map_set_y (x + W) l.current.children _ h7

/-- Advancing `current_bottom` and the extents' height preserves the C2
invariant. -/
theorem bump_bottom_right_inv (style : Style) (fonts : List String) (x W : ℚ)
    (l : Looper) (d : ℚ) (ht : looper_right_inv style fonts x W l) :
    looper_right_inv style fonts x W
      { l with current_bottom := l.current_bottom + d,
               extents := { l.extents with height := l.extents.height + d } } := by
  obtain ⟨h1, h2, h3, h4, h5, h6, h7⟩ := ht
  exact ⟨h1, h2, h3, h4, h5, h6, h7⟩

/-- Advancing the cursor from a known position `x` by at most `W` keeps it
within `x + W`. -/
theorem bump_current_end_right_inv (style : Style) (fonts : List String) (x W : ℚ)
    (l : Looper) (w : ℚ) (hw : w ≤ W) (hl : l.current_end = x)
    (ht : looper_right_inv style fonts x W l) :
    looper_right_inv style fonts x W { l with current_end := l.current_end + w } := by
  obtain ⟨h1, h2, h3, h4, h5, h6, h7⟩ := ht
  refine ⟨h1, h2, ?_, h4, h5, h6, h7⟩
  show l.current_end + w ≤ x + W
  rw [hl]
  exact add_le_add_left hw x

/-- The word step of `do_inline` preserves the C2 invariant whenever the
word's measured width is at most the extents' width. -/
theorem do_inline_word_right_inv (measure : Measure) (style : Style)
    (fonts : List String) (x W : ℚ) (fs : ℚ) (fam : String) (wt : Int)
    (fsty : String) (lh : ℚ) (color : Color) (link : Option String)
    (va : String) (st : Looper × String) (word : String)
    (hx : 0 ≤ x) (hW : 0 ≤ W)
    (hw : measure (" " ++ word) fs fam wt fsty ≤ W)
    (ht : looper_right_inv style fonts x W st.1) :
    looper_right_inv style fonts x W
      ((do_inline_word measure fs fam wt fsty lh color link va st word).1) := by
  obtain ⟨l, curr⟩ := st
  simp only [do_inline_word]
  by_cases hcond : l.current_end + measure (" " ++ word) fs fam wt fsty > l.extents.width
  · rw [if_pos hcond]
    set bx0 : RenderInlineBoxType := RenderInlineBoxType.Text
      { rect := { x := l.current_start, y := l.current_bottom,
                  width := l.current_end - l.current_start, height := lh }
        text := curr
        color := some color
        font_size := fs
        font_family := fam
        link := link
        font_weight := wt
        font_style := fsty
        valign := va } with hbx0
    have ht1 : looper_right_inv style fonts x W (l.add_box_to_current_line bx0) := by
      refine add_box_right_inv style fonts x W l bx0 ht ?_
      intro t htx
      rw [hbx0] at htx
      injection htx with h
      subst h
      show l.current_start + (l.current_end - l.current_start) ≤ x + W
      have := ht.2.2.1
      linarith
    have ht2 := bump_bottom_right_inv style fonts x W (l.add_box_to_current_line bx0)
      ((l.add_box_to_current_line bx0).current.rect.height) ht1
    have ht3 := adjust_right_inv style fonts x W _ ht2
    have ht4 := start_new_line_right_inv style fonts x W _ hW ht3
    refine bump_current_end_right_inv style fonts x W _ _ hw ?_ ht4
    exact ht3.1
  · rw [if_neg hcond]
    obtain ⟨h1, h2, h3, h4, h5, h6, h7⟩ := ht
    refine ⟨h1, h2, ?_, h4, h5, h6, h7⟩
    show l.current_end + measure (" " ++ word) fs fam wt fsty ≤ x + W
    rw [not_lt] at hcond
    rw [h2] at hcond
    linarith

/-- The whole word loop of `do_inline` preserves the C2 invariant. -/
theorem foldl_words_right_inv (measure : Measure) (style : Style)
    (fonts : List String) (x W : ℚ) (fs : ℚ) (fam : String) (wt : Int)
    (fsty : String) (lh : ℚ) (color : Color) (link : Option String)
    (va : String) (hx : 0 ≤ x) (hW : 0 ≤ W) :
    ∀ (words : List String) (st : Looper × String),
      (∀ word ∈ words, measure (" " ++ word) fs fam wt fsty ≤ W) →
      looper_right_inv style fonts x W st.1 →
      looper_right_inv style fonts x W
        ((words.foldl (do_inline_word measure fs fam wt fsty lh color link va) st).1) := by
  intro words
  induction words with
  | nil => intro st _ ht; exact ht
  | cons word rest ih =>
    intro st hws ht
    rw [List.foldl_cons]
    refine ih _ (fun w hw => hws w (List.mem_cons_of_mem word hw)) ?_
    exact do_inline_word_right_inv measure style fonts x W fs fam wt fsty lh color
      link va st word hx hW (hws word (List.mem_cons_self word rest)) ht

/-- `do_inline` on a text node preserves the C2 invariant when every word
of the text measures at most the extents' width. -/
theorem do_inline_text_right_inv (measure : Measure) (style : Style)
    (fonts : List String) (x W : ℚ) (l : Looper) (txt : String)
    (hx : 0 ≤ x) (hW : 0 ≤ W)
    (hwords : ∀ word ∈ split_whitespace txt,
      word_width measure style fonts word ≤ W)
    (ht : looper_right_inv style fonts x W l) :
    looper_right_inv style fonts x W (do_inline_text measure l txt) := by
  have hsn : l.style_node = style := ht.2.2.2.1
  have hff : l.font_families = fonts := ht.2.2.2.2.1
  simp only [do_inline_text, hsn, hff]
  have hfold := foldl_words_right_inv measure style fonts x W
    (style.lookup_length_px "font-size" 10) (find_font_family style fonts)
    (style.lookup_font_weight 400) (style.lookup_string "font-style" "normal")
    (style.lookup_length_px "font-size" 10 * 2)
    (style.lookup_color "color" BLACK) (inline_link l.node)
    (style.lookup_string "vertical-align" "baseline") hx hW
    (split_whitespace txt) (l, "") (fun w hw => hwords w hw) ht
  refine add_box_right_inv style fonts x W _ _ hfold ?_
  intro t htx
  injection htx with h
  subst h
  show _ + (_ - _) ≤ x + W
  have := hfold.2.2.1
  linarith

mutual

/-- `do_inline` preserves the C2 invariant when all its words fit. -/
theorem do_inline_right_inv (measure : Measure) (style : Style)
    (fonts : List String) (x W : ℚ) (hx : 0 ≤ x) (hW : 0 ≤ W) :
    ∀ (t : InlineBox) (l : Looper),
      (∀ word ∈ inline_words t, word_width measure style fonts word ≤ W) →
      looper_right_inv style fonts x W l →
      looper_right_inv style fonts x W (do_inline measure l t)
  | InlineBox.text txt, l, hws, ht =>
    do_inline_text_right_inv measure style fonts x W l txt hx hW
      (by simpa [inline_words] using hws) ht
  | InlineBox.elem children, l, hws, ht =>
    do_inline_list_right_inv measure style fonts x W hx hW children l
      (by simpa [inline_words] using hws) ht

/-- `do_inline`'s element recursion preserves the C2 invariant. -/
theorem do_inline_list_right_inv (measure : Measure) (style : Style)
    (fonts : List String) (x W : ℚ) (hx : 0 ≤ x) (hW : 0 ≤ W) :
    ∀ (ts : List InlineBox) (l : Looper),
      (∀ word ∈ inline_words_list ts, word_width measure style fonts word ≤ W) →
      looper_right_inv style fonts x W l →
      looper_right_inv style fonts x W (do_inline_list measure l ts)
  | [], l, _, ht => ht
  | c :: rest, l, hws, ht => by
    rw [show do_inline_list measure l (c :: rest) =
      do_inline_list measure (do_inline measure l c) rest from rfl]
    refine do_inline_list_right_inv measure style fonts x W hx hW rest _ ?_ ?_
    · intro w hw
      exact hws w (by simp [inline_words_list, hw])
    · refine do_inline_right_inv measure style fonts x W hx hW c l ?_ ht
      intro w hw
      exact hws w (by simp [inline_words_list, hw])

end

/-- The image step of `do_inline_block` preserves the C2 invariant (images
and error boxes are not text fragments; the cursor only advances when the
fit check passes, and wrapping resets it to `extents.x`). -/
theorem do_inline_block_img_right_inv (style : Style) (fonts : List String)
    (x W : ℚ) (iw ih : ℚ) (load : Option LoadedImage) (va : String)
    (l : Looper) (hx : 0 ≤ x) (hW : 0 ≤ W)
    (ht : looper_right_inv style fonts x W l) :
    looper_right_inv style fonts x W (do_inline_block_img iw ih load va l) := by
  simp only [do_inline_block_img]
  by_cases hcond : l.current_end + iw > l.extents.width
  · rw [if_pos hcond]
    refine add_box_right_inv style fonts x W _ _
      (start_new_line_right_inv style fonts x W _ hW
        (adjust_right_inv style fonts x W _ ht)) ?_
    cases load <;> intro t htx <;> cases htx
  · rw [if_neg hcond]
    have ht2 : looper_right_inv style fonts x W
        { l with current_end := l.current_end + iw } := by
      obtain ⟨h1, h2, h3, h4, h5, h6, h7⟩ := ht
      refine ⟨h1, h2, ?_, h4, h5, h6, h7⟩
      show l.current_end + iw ≤ x + W
      rw [not_lt] at hcond
      rw [h2] at hcond
      linarith
    refine add_box_right_inv style fonts x W _ _ ht2 ?_
    cases load <;> intro t htx <;> cases htx

/-- `do_inline_block` preserves the C2 invariant when it does not panic. -/
theorem do_inline_block_right_inv (measure : Measure)
    (load_image : String → Option LoadedImage)
    (style0 : Style) (fonts : List String) (x W : ℚ) (sty : Style)
    (tag_name : String) (attributes : List (String × String))
    (children_head : Option NodeType) (block : RenderBlockBox) (l l2 : Looper)
    (hx : 0 ≤ x) (hW : 0 ≤ W) (htag : tag_name ≠ "button")
    (hres : do_inline_block measure load_image sty tag_name attributes
      children_head block l = Except.ok l2)
    (ht : looper_right_inv style0 fonts x W l) :
    looper_right_inv style0 fonts x W l2 := by
  unfold do_inline_block at hres
  by_cases h1 : tag_name = "img"
  · rw [if_pos h1] at hres
    cases hattrs : img_attrs attributes with
    | error e => rw [hattrs] at hres; cases hres
    | ok whsrc =>
      obtain ⟨w, h, src⟩ := whsrc
      rw [hattrs] at hres
      simp only at hres
      cases hres
      exact do_inline_block_img_right_inv style0 fonts x W w h (load_image src)
        (sty.lookup_string "vertical-align" "baseline") l hx hW ht
  · rw [if_neg h1, if_neg htag] at hres
    cases hres

/-- The child loop of `layout_anonymous_2` preserves the C2 invariant when
every word fits and no child is an inline-block `<button>`. -/
theorem layout_anon_children_right_inv (measure : Measure)
    (load_image : String → Option LoadedImage) (style : Style)
    (fonts : List String) (x W : ℚ) (hx : 0 ≤ x) (hW : 0 ≤ W) :
    ∀ (children : List AnonChild) (l l2 : Looper),
      (∀ word ∈ anon_words children, word_width measure style fonts word ≤ W) →
      (∀ c ∈ children, c.is_button = false) →
      layout_anon_children measure load_image l children = Except.ok l2 →
      looper_right_inv style fonts x W l →
      looper_right_inv style fonts x W l2 := by
  intro children
  induction children with
  | nil =>
    intro l l2 _ _ hres ht
    simp only [layout_anon_children] at hres
    cases hres
    exact ht
  | cons c rest ih =>
    intro l l2 hws hbtn hres ht
    simp only [layout_anon_children] at hres
    cases c with
    | inline tree =>
      simp only at hres
      refine ih _ l2 (fun w hw => hws w ?_)
        (fun c hc => hbtn c (List.mem_cons_of_mem _ hc)) hres ?_
      · simp [anon_words, hw]
      · refine do_inline_right_inv measure style fonts x W hx hW tree l ?_ ht
        intro w hw
        exact hws w (by simp [anon_words, hw])
    | inlineBlock sty tag_name attributes children_head block =>
      simp only at hres
      have htag : tag_name ≠ "button" := by
        have := hbtn _ (List.mem_cons_self _ _)
        simpa [AnonChild.is_button] using this
      cases hblock : do_inline_block measure load_image sty tag_name attributes
          children_head block l with
      | error e => rw [hblock] at hres; cases hres
      | ok lmid =>
        rw [hblock] at hres
        simp only at hres
        refine ih lmid l2 (fun w hw => hws w ?_)
          (fun c hc => hbtn c (List.mem_cons_of_mem _ hc)) hres ?_
        · simp [anon_words, hw]
        · exact do_inline_block_right_inv measure load_image style fonts x W sty
            tag_name attributes children_head block l lmid hx hW htag hblock ht

/-- C2 (amended): for an anonymous box at nonnegative x produced from
inline content of nonnegative width `W`, provided every word's measured
width is at most `W` and no child is an inline-block `<button>`, every
emitted text fragment satisfies
`rect.x + rect.width ≤ anonymous.rect.x + W`.  (As stated the claim is
false twice over: the wrap check compares `current_end + w` against
`extents.width` and a word wider than `W` is carried onto its own line
unchecked, so its fragment overflows the right edge; and the `<button>`
arm of `do_inline_block` advances `current_end` by the measured button
text width with no wrap check, so a following text flush can start past
the right edge — see the counterexample.) -/
theorem C2_inline_no_right_overflow (measure : Measure)
    (load_image : String → Option LoadedImage) (style : Style)
    (node : NodeType) (fonts : List String) (dim : Dimensions)
    (children : List AnonChild) (anon : RenderAnonymousBox) (content : Rect)
    (hx : 0 ≤ dim.content.x) (hW : 0 ≤ dim.content.width)
    (hwords : ∀ word ∈ anon_words children,
      word_width measure style fonts word ≤ dim.content.width)
    (hbtn : ∀ c ∈ children, c.is_button = false)
    (hres : layout_anonymous_2 measure load_image style node fonts dim children =
      Except.ok (anon, content)) :
    anon.rect.x = dim.content.x ∧
    ∀ line ∈ anon.children, ∀ frag ∈ line.children, ∀ t : RenderTextBox,
      frag = RenderInlineBoxType.Text t →
      t.rect.x + t.rect.width ≤ anon.rect.x + dim.content.width := by
  simp only [layout_anonymous_2] at hres
  cases hch : layout_anon_children measure load_image
      { lines := []
        current := RenderLineBox.mk
          ⟨dim.content.x, dim.content.y + dim.content.height, dim.content.width, 0⟩ [] 0
        extents := ⟨dim.content.x, dim.content.y + dim.content.height, dim.content.width, 0⟩
        current_start := dim.content.x
        current_end := dim.content.x
        current_bottom := dim.content.y + dim.content.height
        style_node := style
        node := node
        font_families := fonts } children with
  | error e =>
    rw [hch] at hres
    cases hres
  | ok looper1 =>
    rw [hch] at hres
    simp only at hres
    injection hres with h
    rw [Prod.ext_iff] at h
    obtain ⟨ha, -⟩ := h
    subst ha
    have ht0 : looper_right_inv style fonts dim.content.x dim.content.width
        { lines := []
          current := RenderLineBox.mk
            ⟨dim.content.x, dim.content.y + dim.content.height, dim.content.width, 0⟩ [] 0
          extents := ⟨dim.content.x, dim.content.y + dim.content.height, dim.content.width, 0⟩
          current_start := dim.content.x
          current_end := dim.content.x
          current_bottom := dim.content.y + dim.content.height
          style_node := style
          node := node
          font_families := fonts } := by
      refine ⟨rfl, rfl, ?_, rfl, rfl, ?_, ?_⟩
      · show dim.content.x ≤ dim.content.x + dim.content.width
        linarith
      · intro line hmem
        simp at hmem
      · intro frag hmem
        simp [RenderLineBox.children] at hmem
    have ht1 := layout_anon_children_right_inv measure load_image style fonts
      dim.content.x dim.content.width hx hW children _ looper1 hwords hbtn hch ht0
    have ht2 := adjust_right_inv style fonts dim.content.x dim.content.width _ ht1
    refine ⟨ht2.1, ?_⟩
    intro line hmem frag hfr t htx
    have hxx : (RenderAnonymousBox.mk
        { looper1.adjust_current_line_vertical.extents with
          height := looper1.adjust_current_line_vertical.extents.height +
            looper1.adjust_current_line_vertical.current.rect.height }
        (looper1.adjust_current_line_vertical.lines ++
          [looper1.adjust_current_line_vertical.current])).rect.x = dim.content.x := ht2.1
    rw [hxx]
    have hmem2 : line ∈ looper1.adjust_current_line_vertical.lines ∨
        line = looper1.adjust_current_line_vertical.current := by
      simp only [RenderAnonymousBox.children] at hmem
      rw [List.mem_append, List.mem_singleton] at hmem
      exact hmem
    rcases hmem2 with hmem2 | hmem2
    · exact ht2.2.2.2.2.2.1 line hmem2 frag hfr t htx
    · subst hmem2
      exact ht2.2.2.2.2.2.2 frag hfr t htx

/-- C2 counterexample: (a) with every word measuring 20px in a 10px-wide
context at x = 0, the single word `"foo"` is carried onto a fresh line with
no fit check against its own width, and the trailing flush emits a text
fragment with `rect.x + rect.width = 20 > anonymous.rect.x + W = 10`;
(b) even when every word measures at most `W`, an inline-block `<button>`
advances the cursor by its measured text width (15) with no wrap check, so
the wrap flush for the following text emits a text fragment starting at
`rect.x = 15 > anonymous.rect.x + W = 10` — the claimed no-overflow
invariant is false, and stays false under the word-width proviso alone. -/
theorem C2_counterexample :
    ((layout_anonymous_2 (fun _ _ _ _ _ => (20 : ℚ)) (fun _ => none)
        ([] : Style) NodeType.Meta []
        ⟨⟨0, 0, 10, 0⟩, ⟨0, 0, 0, 0⟩, ⟨0, 0, 0, 0⟩, ⟨0, 0, 0, 0⟩⟩
        [AnonChild.inline (InlineBox.text "foo")]).toOption.bind
      (fun p => (p.1.children.get? 1).bind
        (fun line => (line.children.get? 0).map
          (fun frag =>
            decide (frag.rect.x + frag.rect.width ≤ p.1.rect.x + 10))))) =
      some false ∧
    ((layout_anonymous_2 c2ButtonMeasure (fun _ => none)
        ([] : Style) NodeType.Meta []
        ⟨⟨0, 0, 10, 0⟩, ⟨0, 0, 0, 0⟩, ⟨0, 0, 0, 0⟩, ⟨0, 0, 0, 0⟩⟩
        c2ButtonChildren).toOption.bind
      (fun p => (p.1.children.get? 0).bind
        (fun line => (line.children.get? 1).map
          (fun frag =>
            match frag with
            | RenderInlineBoxType.Text t =>
              decide (t.rect.x + t.rect.width ≤ p.1.rect.x + 10)
            | _ => true)))) = some false ∧
    ∀ word ∈ anon_words c2ButtonChildren,
      word_width c2ButtonMeasure ([] : Style) [] word ≤ 10 := by
  refine ⟨?_, ?_, ?_⟩
  · with_unfolding_all decide
  · with_unfolding_all decide
  · with_unfolding_all decide

/-- Witness for C2: a 3px word in a 10px context yields a fragment ending
at 3 ≤ 0 + 10. -/
theorem C2_inline_no_right_overflow_witness :
    c2WitnessText.rect.x + c2WitnessText.rect.width ≤ c2WitnessAnon.rect.x + 10 := by
  have h := (C2_inline_no_right_overflow (fun _ _ _ _ _ => (3 : ℚ)) (fun _ => none)
    ([] : Style) NodeType.Meta []
    ⟨⟨0, 0, 10, 0⟩, ⟨0, 0, 0, 0⟩, ⟨0, 0, 0, 0⟩, ⟨0, 0, 0, 0⟩⟩
    [AnonChild.inline (InlineBox.text "hi")] c2WitnessAnon ⟨0, 0, 10, 20⟩
    (by norm_num) (by norm_num)
    (by
      intro w hw
      have he : anon_words [AnonChild.inline (InlineBox.text "hi")] = ["hi"] := by
        with_unfolding_all rfl
      rw [he, List.mem_singleton] at hw
      subst hw
      with_unfolding_all decide)
    (by
      intro c hc
      rw [List.mem_singleton] at hc
      subst hc
      with_unfolding_all rfl)
    (by with_unfolding_all rfl)).2 c2WitnessLine
    (by
      show c2WitnessLine ∈ c2WitnessAnon.children
      rw [show c2WitnessAnon.children = [c2WitnessLine] from rfl]
      exact List.mem_singleton.mpr rfl)
    (RenderInlineBoxType.Text c2WitnessText)
    (by
      rw [show c2WitnessLine.children = [RenderInlineBoxType.Text c2WitnessText] from rfl]
      exact List.mem_singleton.mpr rfl)
    c2WitnessText rfl
  exact h

/-- Folding `max` over an appended element takes the max with it. -/
theorem foldl_max_append (hs : List ℚ) (a h : ℚ) :
    (hs ++ [h]).foldl max a = max (hs.foldl max a) h := by
  rw [List.foldl_append]
  rfl

/-- The max-fold never drops below its initial value. -/
theorem init_le_foldl_max (hs : List ℚ) (a : ℚ) : a ≤ hs.foldl max a := by
  induction hs generalizing a with
  | nil => exact le_refl a
  | cons h rest ih =>
    rw [List.foldl_cons]
    exact le_trans (le_max_left a h) (ih (max a h))

/-- Every element of a list is at most its max-fold. -/
theorem mem_le_foldl_max (hs : List ℚ) (a : ℚ) :
    ∀ x ∈ hs, x ≤ hs.foldl max a := by
  induction hs generalizing a with
  | nil => intro x hx; simp at hx
  | cons h rest ih =>
    intro x hx
    rw [List.mem_cons] at hx
    rw [List.foldl_cons]
    rcases hx with rfl | hx
    · exact le_trans (le_max_right a x) (init_le_foldl_max rest (max a x))
    · exact ih (max a h) x hx

/-- `add_box_to_current_line` preserves the C4 invariant. -/
theorem add_box_height_inv (l : Looper) (bx : RenderInlineBoxType)
    (ht : looper_height_inv l) :
    looper_height_inv (l.add_box_to_current_line bx) := by
  obtain ⟨h1, h2⟩ := ht
  refine ⟨h1, ?_⟩
  show max l.current.rect.height bx.rect.height =
    ((l.current.children ++ [bx]).map (fun c => c.rect.height)).foldl max 0
  have hmap : List.map (fun c : RenderInlineBoxType => c.rect.height) [bx] =
      [bx.rect.height] := rfl
  rw [List.map_append, hmap, foldl_max_append, h2]

/-- `adjust_current_line_vertical` preserves the C4 invariant (only y
coordinates move). -/
theorem adjust_height_inv (l : Looper) (ht : looper_height_inv l) :
    looper_height_inv l.adjust_current_line_vertical := by
  obtain ⟨h1, h2⟩ := ht
  refine ⟨h1, ?_⟩
  show l.current.rect.height =
    ((l.current.children.map (fun ch =>
        ch.set_rect_y (adjusted_y l.current.rect ch.valign ch.rect))).map
      (fun c => c.rect.height)).foldl max 0
  rw [List.map_map]
  have : ((fun c : RenderInlineBoxType => c.rect.height) ∘ (fun ch =>
      ch.set_rect_y (adjusted_y l.current.rect ch.valign ch.rect))) =
      fun c : RenderInlineBoxType => c.rect.height := by
    funext c
    simp only [Function.comp]
    exact set_rect_y_height c _
  rw [this]
  exact h2

/-- `start_new_line` preserves the C4 invariant (the fresh line has height
0 and no children). -/
theorem start_new_line_height_inv (l : Looper) (ht : looper_height_inv l) :
    looper_height_inv l.start_new_line := by
  obtain ⟨h1, h2⟩ := ht
  refine ⟨?_, rfl⟩
  intro line hmem
  simp only [Looper.start_new_line] at hmem
  rw [List.mem_append, List.mem_singleton] at hmem
  rcases hmem with hmem | rfl
  · exact h1 line hmem
  · exact h2

/-- The word step of `do_inline` preserves the C4 invariant. -/
theorem do_inline_word_height_inv (measure : Measure) (fs : ℚ) (fam : String)
    (wt : Int) (fsty : String) (lh : ℚ) (color : Color) (link : Option String)
    (va : String) (st : Looper × String) (word : String)
    (ht : looper_height_inv st.1) :
    looper_height_inv
      ((do_inline_word measure fs fam wt fsty lh color link va st word).1) := by
  obtain ⟨l, curr⟩ := st
  simp only [do_inline_word]
  by_cases hcond : l.current_end + measure (" " ++ word) fs fam wt fsty > l.extents.width
  · rw [if_pos hcond]
    set bx0 : RenderInlineBoxType := RenderInlineBoxType.Text
      { rect := { x := l.current_start, y := l.current_bottom,
                  width := l.current_end - l.current_start, height := lh }
        text := curr
        color := some color
        font_size := fs
        font_family := fam
        link := link
        font_weight := wt
        font_style := fsty
        valign := va } with hbx0
    have ht1 := add_box_height_inv l bx0 ht
    have ht2 : looper_height_inv
        { l.add_box_to_current_line bx0 with
          current_bottom := (l.add_box_to_current_line bx0).current_bottom +
            (l.add_box_to_current_line bx0).current.rect.height
          extents := { (l.add_box_to_current_line bx0).extents with
            height := (l.add_box_to_current_line bx0).extents.height +
              (l.add_box_to_current_line bx0).current.rect.height } } := ht1
    have ht3 := adjust_height_inv _ ht2
    have ht4 := start_new_line_height_inv _ ht3
    exact ht4
  · rw [if_neg hcond]
    exact ht

/-- The whole word loop preserves the C4 invariant. -/
theorem foldl_words_height_inv (measure : Measure) (fs : ℚ) (fam : String)
    (wt : Int) (fsty : String) (lh : ℚ) (color : Color) (link : Option String)
    (va : String) :
    ∀ (words : List String) (st : Looper × String),
      looper_height_inv st.1 →
      looper_height_inv
        ((words.foldl (do_inline_word measure fs fam wt fsty lh color link va) st).1) := by
  intro words
  induction words with
  | nil => intro st ht; exact ht
  | cons word rest ih =>
    intro st ht
    rw [List.foldl_cons]
    exact ih _ (do_inline_word_height_inv measure fs fam wt fsty lh color link va
      st word ht)

/-- `do_inline` on a text node preserves the C4 invariant. -/
theorem do_inline_text_height_inv (measure : Measure) (l : Looper) (txt : String)
    (ht : looper_height_inv l) :
    looper_height_inv (do_inline_text measure l txt) := by
  simp only [do_inline_text]
  exact add_box_height_inv _ _ (foldl_words_height_inv measure _ _ _ _ _ _ _ _ _ _ ht)

mutual

/-- `do_inline` preserves the C4 invariant. -/
theorem do_inline_height_inv (measure : Measure) :
    ∀ (t : InlineBox) (l : Looper),
      looper_height_inv l → looper_height_inv (do_inline measure l t)
  | InlineBox.text txt, l, ht => do_inline_text_height_inv measure l txt ht
  | InlineBox.elem children, l, ht =>
    do_inline_list_height_inv measure children l ht

/-- `do_inline`'s element recursion preserves the C4 invariant. -/
theorem do_inline_list_height_inv (measure : Measure) :
    ∀ (ts : List InlineBox) (l : Looper),
      looper_height_inv l → looper_height_inv (do_inline_list measure l ts)
  | [], _, ht => ht
  | c :: rest, l, ht =>
    do_inline_list_height_inv measure rest _ (do_inline_height_inv measure c l ht)

end

/-- The image step of `do_inline_block` preserves the C4 invariant. -/
theorem do_inline_block_img_height_inv (iw ih : ℚ) (load : Option LoadedImage)
    (va : String) (l : Looper) (ht : looper_height_inv l) :
    looper_height_inv (do_inline_block_img iw ih load va l) := by
  simp only [do_inline_block_img]
  by_cases hcond : l.current_end + iw > l.extents.width
  · rw [if_pos hcond]
    exact add_box_height_inv _ _
      (start_new_line_height_inv _ (adjust_height_inv _ ht))
  · rw [if_neg hcond]
    exact add_box_height_inv _ _ ht

/-- The `<button>` arm of `do_inline_block` preserves the C4 invariant when
it does not panic: bumping `current_end` leaves the lines untouched and
`add_box_to_current_line` grows the line height as for any fragment. -/
theorem do_inline_block_button_height_inv (measure : Measure) (sty : Style)
    (children_head : Option NodeType) (block : RenderBlockBox) (l l2 : Looper)
    (hres : do_inline_block_button measure sty children_head block l =
      Except.ok l2)
    (ht : looper_height_inv l) : looper_height_inv l2 := by
  cases children_head with
  | none => simp only [do_inline_block_button] at hres; cases hres
  | some node =>
    cases node with
    | TextNode text =>
      simp only [do_inline_block_button] at hres
      cases hres
      exact add_box_height_inv _ _ ht
    | ElementNode t a => simp only [do_inline_block_button] at hres; cases hres
    | Comment s => simp only [do_inline_block_button] at hres; cases hres
    | Cdata s => simp only [do_inline_block_button] at hres; cases hres
    | Meta => simp only [do_inline_block_button] at hres; cases hres

/-- `do_inline_block` preserves the C4 invariant when it does not panic. -/
theorem do_inline_block_height_inv (measure : Measure)
    (load_image : String → Option LoadedImage) (sty : Style)
    (tag_name : String) (attributes : List (String × String))
    (children_head : Option NodeType) (block : RenderBlockBox) (l l2 : Looper)
    (hres : do_inline_block measure load_image sty tag_name attributes
      children_head block l = Except.ok l2)
    (ht : looper_height_inv l) : looper_height_inv l2 := by
  unfold do_inline_block at hres
  by_cases h1 : tag_name = "img"
  · rw [if_pos h1] at hres
    cases hattrs : img_attrs attributes with
    | error e => rw [hattrs] at hres; cases hres
    | ok whsrc =>
      obtain ⟨w, h, src⟩ := whsrc
      rw [hattrs] at hres
      simp only at hres
      cases hres
      exact do_inline_block_img_height_inv w h (load_image src) _ l ht
  · rw [if_neg h1] at hres
    by_cases h2 : tag_name = "button"
    · rw [if_pos h2] at hres
      exact do_inline_block_button_height_inv measure sty children_head block
        l l2 hres ht
    · rw [if_neg h2] at hres
      cases hres

/-- The child loop of `layout_anonymous_2` preserves the C4 invariant. -/
theorem layout_anon_children_height_inv (measure : Measure)
    (load_image : String → Option LoadedImage) :
    ∀ (children : List AnonChild) (l l2 : Looper),
      layout_anon_children measure load_image l children = Except.ok l2 →
      looper_height_inv l → looper_height_inv l2 := by
  intro children
  induction children with
  | nil =>
    intro l l2 hres ht
    simp only [layout_anon_children] at hres
    cases hres
    exact ht
  | cons c rest ih =>
    intro l l2 hres ht
    simp only [layout_anon_children] at hres
    cases c with
    | inline tree =>
      simp only at hres
      exact ih _ l2 hres (do_inline_height_inv measure tree l ht)
    | inlineBlock sty tag_name attributes children_head block =>
      simp only at hres
      cases hblock : do_inline_block measure load_image sty tag_name attributes
          children_head block l with
      | error e => rw [hblock] at hres; cases hres
      | ok lmid =>
        rw [hblock] at hres
        simp only at hres
        exact ih lmid l2 hres
          (do_inline_block_height_inv measure load_image sty tag_name attributes
            children_head block l lmid hblock ht)

/-- C4 (amended): every finished line box's rect height equals the max-fold
(from 0) of its children's rect heights — for nonnegative child heights
this is exactly the maximum child height (0 for an empty line) — and in
particular every child's height is at most the line's height.  The
claimed containment of children inside the line after vertical alignment
is false: the default `baseline` keyword places a fragment of maximal
height 10px above the line's top — see the counterexample. -/
theorem C4_line_height_eq_max (measure : Measure)
    (load_image : String → Option LoadedImage) (style : Style)
    (node : NodeType) (fonts : List String) (dim : Dimensions)
    (children : List AnonChild) (anon : RenderAnonymousBox) (content : Rect)
    (hres : layout_anonymous_2 measure load_image style node fonts dim children =
      Except.ok (anon, content)) :
    ∀ line ∈ anon.children,
      line.rect.height = (line.children.map (fun c => c.rect.height)).foldl max 0 ∧
      ∀ frag ∈ line.children, frag.rect.height ≤ line.rect.height := by
  simp only [layout_anonymous_2] at hres
  cases hch : layout_anon_children measure load_image
      { lines := []
        current := RenderLineBox.mk
          ⟨dim.content.x, dim.content.y + dim.content.height, dim.content.width, 0⟩ [] 0
        extents := ⟨dim.content.x, dim.content.y + dim.content.height, dim.content.width, 0⟩
        current_start := dim.content.x
        current_end := dim.content.x
        current_bottom := dim.content.y + dim.content.height
        style_node := style
        node := node
        font_families := fonts } children with
  | error e =>
    rw [hch] at hres
    cases hres
  | ok looper1 =>
    rw [hch] at hres
    simp only at hres
    injection hres with h
    rw [Prod.ext_iff] at h
    obtain ⟨ha, -⟩ := h
    subst ha
    have ht0 : looper_height_inv
        { lines := ([] : List RenderLineBox)
          current := RenderLineBox.mk
            ⟨dim.content.x, dim.content.y + dim.content.height, dim.content.width, 0⟩ [] 0
          extents := ⟨dim.content.x, dim.content.y + dim.content.height, dim.content.width, 0⟩
          current_start := dim.content.x
          current_end := dim.content.x
          current_bottom := dim.content.y + dim.content.height
          style_node := style
          node := node
          font_families := fonts } := by
      refine ⟨?_, rfl⟩
      intro line hmem
      simp at hmem
    have ht1 := layout_anon_children_height_inv measure load_image children _ looper1
      hch ht0
    have ht2 := adjust_height_inv _ ht1
    intro line hmem
    have hmem2 : line ∈ looper1.adjust_current_line_vertical.lines ∨
        line = looper1.adjust_current_line_vertical.current := by
      simp only [RenderAnonymousBox.children] at hmem
      rw [List.mem_append, List.mem_singleton] at hmem
      exact hmem
    have hline : line.rect.height =
        (line.children.map (fun c => c.rect.height)).foldl max 0 := by
      rcases hmem2 with hmem2 | hmem2
      · exact ht2.1 line hmem2
      · subst hmem2
        exact ht2.2
    refine ⟨hline, ?_⟩
    intro frag hfr
    rw [hline]
    exact mem_le_foldl_max _ 0 frag.rect.height (List.mem_map_of_mem _ hfr)

/-- C4 counterexample: after vertical alignment, the single baseline
fragment of a line lies 10px above the line's top: the fragment's top-left
corner is inside the fragment's rect but outside the line's rect, so the
children are not contained in the line box. -/
theorem C4_counterexample :
    ((layout_anonymous_2 (fun _ _ _ _ _ => (3 : ℚ)) (fun _ => none)
        ([] : Style) NodeType.Meta []
        ⟨⟨0, 0, 10, 0⟩, ⟨0, 0, 0, 0⟩, ⟨0, 0, 0, 0⟩, ⟨0, 0, 0, 0⟩⟩
        [AnonChild.inline (InlineBox.text "hi")]).toOption.bind
      (fun p => (p.1.children.get? 0).bind
        (fun line => (line.children.get? 0).map
          (fun frag =>
            frag.rect.contains frag.rect.x frag.rect.y &&
            !(line.rect.contains frag.rect.x frag.rect.y))))) = some true := by
  with_unfolding_all decide

/-- Witness for C4: in the one-line `"hi"` scenario the line's height 20
is the max-fold of its single child's height. -/
theorem C4_line_height_eq_max_witness :
    c2WitnessLine.rect.height =
      (c2WitnessLine.children.map (fun c => c.rect.height)).foldl max 0 ∧
    ∀ frag ∈ c2WitnessLine.children, frag.rect.height ≤ c2WitnessLine.rect.height :=
  C4_line_height_eq_max (fun _ _ _ _ _ => (3 : ℚ)) (fun _ => none)
    ([] : Style) NodeType.Meta []
    ⟨⟨0, 0, 10, 0⟩, ⟨0, 0, 0, 0⟩, ⟨0, 0, 0, 0⟩, ⟨0, 0, 0, 0⟩⟩
    [AnonChild.inline (InlineBox.text "hi")] c2WitnessAnon ⟨0, 0, 10, 20⟩
    (by with_unfolding_all rfl) c2WitnessLine
    (by
      rw [show c2WitnessAnon.children = [c2WitnessLine] from rfl]
      exact List.mem_singleton.mpr rfl)

/-- C5 counterexample: adjusting identical 5px fragments in a 20px line,
`"sub"` puts the fragment at y = 15 while `"baseline"` puts it at y = 5 —
the two keywords do not coincide. -/
theorem C5_counterexample :
    (((c5Looper "sub").adjust_current_line_vertical.current.children.get? 0).map
        (fun f => f.rect.y) = some 15) ∧
    (((c5Looper "baseline").adjust_current_line_vertical.current.children.get? 0).map
        (fun f => f.rect.y) = some 5) ∧
    (15 : ℚ) ≠ 5 := by
  refine ⟨by with_unfolding_all rfl, by with_unfolding_all rfl, by norm_num⟩

/-- C5 (amended): the `"sub"` arm computes `line.y + line.height −
rect.height − 10.0 + 10.0`, which is the `"baseline"` position plus 10 —
i.e. exactly the `"bottom"` position, not the baseline position. -/
theorem C5_sub_is_bottom_not_baseline (line_rect r : Rect) :
    adjusted_y line_rect "sub" r = adjusted_y line_rect "baseline" r + 10 ∧
    adjusted_y line_rect "sub" r = adjusted_y line_rect "bottom" r := by
  constructor <;> simp [adjusted_y]

/-- The cell loop produces exactly the cells' rects indexed by overall
child position. -/
theorem layout_table_row_go_spec (content : Rect) (child_width : ℚ) :
    ∀ (children : List RowChild) (i : Nat),
      layout_table_row_go content child_width i children =
        (List.enumFrom i children).filterMap (fun p =>
          if p.2 = RowChild.cell then
            some { x := content.x + child_width * (p.1 : ℚ), y := content.y,
                   width := child_width, height := (0 : ℚ) }
          else none) := by
  intro children
  induction children with
  | nil => intro i; rfl
  | cons c rest ih =>
    intro i
    cases c with
    | cell =>
      simp only [layout_table_row_go, List.enumFrom, List.filterMap_cons, ih (i + 1)]
      rfl
    | anonymous =>
      simp only [layout_table_row_go, List.enumFrom, List.filterMap_cons, ih (i + 1)]
      rfl
    | other =>
      simp only [layout_table_row_go, List.enumFrom, List.filterMap_cons, ih (i + 1)]
      rfl

/-- C6 (amended): `layout_table_row` sets the row's content height to 50
and gives the child at overall index `j` (0-based, counting **all**
children, not only cells), when it is a `TableCell`, a containing block of
width `row.content.width / n` (n the number of cell children), x =
`row.content.x + j × (width/n)`, y = `row.content.y` and height 0.  When
all children are cells the overall index equals the cell ordinal, so a
300-wide row with three cells yields cells at x 0, 100, 200, each 100
wide. -/
theorem C6_table_row_geometry (content : Rect) (children : List RowChild) :
    (layout_table_row content children).1 = { content with height := 50 } ∧
    (layout_table_row content children).2 =
      children.enum.filterMap (fun p =>
        if p.2 = RowChild.cell then
          some { x := content.x +
                   (content.width / (count_cells children : ℚ)) * (p.1 : ℚ),
                 y := content.y,
                 width := content.width / (count_cells children : ℚ),
                 height := (0 : ℚ) }
        else none) ∧
    (layout_table_row ⟨0, 0, 300, 0⟩
        [RowChild.cell, RowChild.cell, RowChild.cell]).2 =
      [⟨0, 0, 100, 0⟩, ⟨100, 0, 100, 0⟩, ⟨200, 0, 100, 0⟩] := by
  refine ⟨rfl, ?_, by with_unfolding_all rfl⟩
  show layout_table_row_go { content with height := 50 }
      (content.width / (count_cells children : ℚ)) 0 children = _
  rw [layout_table_row_go_spec]
  rfl

/-- C6 counterexample: in a 300-wide row whose children are a cell, a
non-cell, and a cell, the second cell's containing block sits at
x = 300 (overall index 2 × half-width 150), not at x = 150 as indexing by
cell ordinal (i = 1) would give. -/
theorem C6_counterexample :
    (layout_table_row ⟨0, 0, 300, 0⟩
        [RowChild.cell, RowChild.other, RowChild.cell]).2 =
      [⟨0, 0, 150, 0⟩, ⟨300, 0, 150, 0⟩] ∧ (300 : ℚ) ≠ 0 + 150 * 1 := by
  refine ⟨by with_unfolding_all rfl, by norm_num⟩

/-- `first_containing` over an append is the first list's answer unless it
is `None`. -/
theorem first_containing_append (a b : List RenderTextBox) (x y : ℚ) :
    first_containing (a ++ b) x y =
      (if (first_containing a x y).is_none then first_containing b x y
       else first_containing a x y) := by
  simp only [first_containing, List.find?_append]
  cases List.find? (fun t => t.rect.contains x y) a with
  | none => simp [Option.orElse, QueryResult.is_none]
  | some t => simp [Option.orElse, QueryResult.is_none]

mutual

/-- The hit test on a render box answers the first reachable containing
text box. -/
theorem find_eq_box (x y : ℚ) :
    ∀ b : RenderBox, b.find_box_containing x y = first_containing (reach_box b) x y
  | RenderBox.Block bx => find_eq_block x y bx
  | RenderBox.Anonymous bx => find_eq_anon x y bx
  | RenderBox.Inline => rfl
  | RenderBox.InlineBlock => rfl

/-- The hit test on a block box answers the first reachable containing
text box. -/
theorem find_eq_block (x y : ℚ) :
    ∀ b : RenderBlockBox,
      b.find_box_containing x y = first_containing (reach_block b) x y
  | RenderBlockBox.mk _ _ _ _ _ _ _ _ children => find_eq_box_list x y children

/-- The block child loop answers the first reachable containing text box. -/
theorem find_eq_box_list (x y : ℚ) :
    ∀ cs : List RenderBox,
      find_in_block_children cs x y = first_containing (reach_box_list cs) x y
  | [] => rfl
  | c :: rest => by
    have h1 := find_eq_box x y c
    have h2 := find_eq_box_list x y rest
    show (if (c.find_box_containing x y).is_none then find_in_block_children rest x y
      else c.find_box_containing x y) =
      first_containing (reach_box c ++ reach_box_list rest) x y
    rw [first_containing_append, ← h1, ← h2]

/-- The hit test on an anonymous box answers the first reachable containing
text box. -/
theorem find_eq_anon (x y : ℚ) :
    ∀ b : RenderAnonymousBox,
      b.find_box_containing x y = first_containing (reach_anon b) x y
  | RenderAnonymousBox.mk _ children => find_eq_line_list x y children

/-- The line loop answers the first reachable containing text box. -/
theorem find_eq_line_list (x y : ℚ) :
    ∀ cs : List RenderLineBox,
      find_in_anon_children cs x y = first_containing (reach_line_list cs) x y
  | [] => rfl
  | c :: rest => by
    have h1 := find_eq_line x y c
    have h2 := find_eq_line_list x y rest
    show (if (c.find_box_containing x y).is_none then find_in_anon_children rest x y
      else c.find_box_containing x y) =
      first_containing (reach_line c ++ reach_line_list rest) x y
    rw [first_containing_append, ← h1, ← h2]

/-- The hit test on a line box answers the first reachable containing text
box. -/
theorem find_eq_line (x y : ℚ) :
    ∀ b : RenderLineBox,
      b.find_box_containing x y = first_containing (reach_line b) x y
  | RenderLineBox.mk _ children _ => find_eq_inline_list x y children

/-- The fragment loop answers the first containing text fragment. -/
theorem find_eq_inline_list (x y : ℚ) :
    ∀ cs : List RenderInlineBoxType,
      find_in_line_children cs x y = first_containing (reach_inline_list cs) x y
  | [] => rfl
  | RenderInlineBoxType.Text t :: rest => by
    have h2 := find_eq_inline_list x y rest
    show (if (RenderTextBox.find_box_containing t x y).is_none then
        find_in_line_children rest x y
      else RenderTextBox.find_box_containing t x y) =
      first_containing (t :: reach_inline_list rest) x y
    by_cases hc : t.rect.contains x y
    · simp [RenderTextBox.find_box_containing, hc, QueryResult.is_none,
        first_containing, List.find?]
    · simp only [Bool.not_eq_true] at hc
      simp [RenderTextBox.find_box_containing, hc, QueryResult.is_none,
        first_containing, List.find?, h2]
  | RenderInlineBoxType.Image i :: rest => by
    have h2 := find_eq_inline_list x y rest
    show (if (QueryResult.None).is_none then find_in_line_children rest x y
      else QueryResult.None) = first_containing (reach_inline_list rest) x y
    simpa [QueryResult.is_none] using h2
  | RenderInlineBoxType.Block b :: rest => by
    have h2 := find_eq_inline_list x y rest
    show (if (QueryResult.None).is_none then find_in_line_children rest x y
      else QueryResult.None) = first_containing (reach_inline_list rest) x y
    simpa [QueryResult.is_none] using h2
  | RenderInlineBoxType.Error e :: rest => by
    have h2 := find_eq_inline_list x y rest
    show (if (QueryResult.None).is_none then find_in_line_children rest x y
      else QueryResult.None) = first_containing (reach_inline_list rest) x y
    simpa [QueryResult.is_none] using h2

end

/-- C7 (amended): `find_box_containing` returns the first text box, in
depth-first pre-order over the boxes it searches, whose rect contains the
point, and `None` when none does — but the search does not descend into
inline `Block` fragments (nor `Image`/`Error` ones), so text inside an
inline block is unreachable; containment is closed on the left, top and
right edges and half-open on the bottom edge. -/
theorem C7_hit_test_first_reachable (root : RenderBox) (x y : ℚ) :
    root.find_box_containing x y = first_containing (reach_box root) x y ∧
    (∀ (r : Rect) (px py : ℚ), r.contains px py = true ↔
      (r.x ≤ px ∧ px ≤ r.x + r.width ∧ r.y ≤ py ∧ py < r.y + r.height)) := by
  refine ⟨find_eq_box x y root, ?_⟩
  intro r px py
  simp only [Rect.contains, Bool.and_eq_true, decide_eq_true_eq, ge_iff_le, gt_iff_lt]
  constructor
  · rintro ⟨⟨⟨h1, h2⟩, h3⟩, h4⟩
    exact ⟨h1, h2, h3, h4⟩
  · rintro ⟨h1, h2, h3, h4⟩
    exact ⟨⟨⟨h1, h2⟩, h3⟩, h4⟩

/-- C7 counterexample: the point (1,1) lies inside a text box that is in
depth-first pre-order of the tree, yet `find_box_containing` answers
`None`, because the text box sits inside an inline `Block` fragment, which
the hit test does not descend into. -/
theorem C7_counterexample :
    RenderBox.find_box_containing c7Tree 1 1 = QueryResult.None ∧
    first_containing (all_text_boxes c7Tree) 1 1 = QueryResult.Text c7TextInner ∧
    QueryResult.Text c7TextInner ≠ QueryResult.None := by
  refine ⟨by with_unfolding_all rfl, by with_unfolding_all rfl, by decide⟩

/-- The scan returns the first scannable family the cache has, else
`"sans-serif"`. -/
theorem find_font_family_scan_spec (vals : List ValueAtom) (fonts : List String) :
    find_font_family_scan vals fonts =
      ((vals.filterMap font_atom_name).find? (has_font_family fonts)).getD
        "sans-serif" := by
  induction vals with
  | nil => rfl
  | cons v rest ih =>
    cases v with
    | StringLiteral s =>
      simp only [find_font_family_scan, font_atom_name, List.filterMap_cons,
        List.find?]
      by_cases hc : has_font_family fonts s
      · simp [hc]
      · simp only [Bool.not_eq_true] at hc
        simp [hc, ih]
    | Keyword s =>
      simp only [find_font_family_scan, font_atom_name, List.filterMap_cons,
        List.find?]
      by_cases hc : has_font_family fonts s
      · simp [hc]
      · simp only [Bool.not_eq_true] at hc
        simp [hc, ih]
    | Length v u => simpa [find_font_family_scan, font_atom_name,
        List.filterMap_cons] using ih
    | ColorValue c => simpa [find_font_family_scan, font_atom_name,
        List.filterMap_cons] using ih

/-- The scan's result is a cached family or the fallback. -/
theorem find_font_family_scan_mem (vals : List ValueAtom) (fonts : List String) :
    find_font_family_scan vals fonts ∈ fonts ∨
      find_font_family_scan vals fonts = "sans-serif" := by
  induction vals with
  | nil => exact Or.inr rfl
  | cons v rest ih =>
    cases v with
    | StringLiteral s =>
      simp only [find_font_family_scan]
      by_cases hc : has_font_family fonts s
      · rw [if_pos hc]
        exact Or.inl (by simpa [has_font_family] using hc)
      · rw [if_neg hc]
        exact ih
    | Keyword s =>
      simp only [find_font_family_scan]
      by_cases hc : has_font_family fonts s
      · rw [if_pos hc]
        exact Or.inl (by simpa [has_font_family] using hc)
      · rw [if_neg hc]
        exact ih
    | Length v u => exact ih
    | ColorValue c => exact ih

/-- C8 (amended): for an `ArrayValue` font stack the resolver returns the
first listed family (string literal or keyword) the font cache has, with
`"sans-serif"` as fallback; but a **single keyword** declaration is
returned verbatim with no cache check, so the result is either a cached
family, or `"sans-serif"`, or the declared single keyword itself (which
may be absent from the cache — see the counterexample). -/
theorem C8_font_family_resolution (style : Style) (fonts : List String) :
    (∀ vals, style.lookup "font-family" "font-family" (Value.Keyword "sans-serif") =
        Value.ArrayValue vals →
      find_font_family style fonts =
        ((vals.filterMap font_atom_name).find? (has_font_family fonts)).getD
          "sans-serif") ∧
    (∀ s, style.lookup "font-family" "font-family" (Value.Keyword "sans-serif") =
        Value.Keyword s →
      find_font_family style fonts = s) ∧
    (find_font_family style fonts ∈ fonts ∨
      find_font_family style fonts = "sans-serif" ∨
      style.lookup "font-family" "font-family" (Value.Keyword "sans-serif") =
        Value.Keyword (find_font_family style fonts)) := by
  refine ⟨?_, ?_, ?_⟩
  · intro vals hv
    simp only [find_font_family, hv]
    exact find_font_family_scan_spec vals fonts
  · intro s hv
    simp only [find_font_family, hv]
  · cases hv : style.lookup "font-family" "font-family" (Value.Keyword "sans-serif") with
    | Keyword s =>
      right; right
      simp only [find_font_family, hv]
    | ArrayValue vals =>
      have := find_font_family_scan_mem vals fonts
      rcases this with h | h
      · left
        simpa only [find_font_family, hv] using h
      · right; left
        simpa only [find_font_family, hv] using h
    | Length v u => right; left; simp [find_font_family, hv]
    | StringLiteral s => right; left; simp [find_font_family, hv]
    | ColorValue c => right; left; simp [find_font_family, hv]

/-- Witness for C8: an array stack `[bogus, arial]` with only `arial`
cached resolves to `arial`. -/
theorem C8_font_family_resolution_witness :
    find_font_family
      [("font-family", Value.ArrayValue
        [ValueAtom.Keyword "bogus", ValueAtom.StringLiteral "arial"])]
      ["arial"] = "arial" := by
  have h := (C8_font_family_resolution
    [("font-family", Value.ArrayValue
      [ValueAtom.Keyword "bogus", ValueAtom.StringLiteral "arial"])]
    ["arial"]).1 [ValueAtom.Keyword "bogus", ValueAtom.StringLiteral "arial"]
    (by with_unfolding_all rfl)
  rw [h]
  with_unfolding_all rfl

/-- C8 counterexample: a single-keyword declaration `font-family: bogus`
is returned as-is even though the cache (holding only `sans-serif`) does
not have it — the claimed "always cached or sans-serif" property is
false. -/
theorem C8_counterexample :
    find_font_family [("font-family", Value.Keyword "bogus")] ["sans-serif"] =
      "bogus" ∧
    has_font_family ["sans-serif"] "bogus" = false ∧
    "bogus" ≠ "sans-serif" := by
  refine ⟨by with_unfolding_all rfl, by with_unfolding_all rfl, by decide⟩

/-! ## Inline-block image error handling (claims C9 and C10) -/
/-- If the `<img>` attribute reads succeed, `src` was present and any
present `width`/`height` attribute parsed. -/
theorem img_attrs_ok_inv (attributes : List (String × String)) (w h : ℚ)
    (src : String) (himg : img_attrs attributes = Except.ok (w, h, src)) :
    attrs_get attributes "src" = some src ∧
    (∀ s, attrs_get attributes "width" = some s → parse_u32 s ≠ none) ∧
    (∀ s, attrs_get attributes "height" = some s → parse_u32 s ≠ none) := by
  unfold img_attrs at himg
  cases hw0 : attrs_get attributes "width" with
  | none =>
    simp only [hw0] at himg
    cases hh0 : attrs_get attributes "height" with
    | none =>
      simp only [hh0] at himg
      cases hs0 : attrs_get attributes "src" with
      | none => simp only [hs0] at himg; cases himg
      | some s1 =>
        simp only [hs0, Except.ok.injEq, Prod.mk.injEq] at himg
        refine ⟨by rw [himg.2.2], ?_, ?_⟩
        · intro s hs; simp [hw0] at hs
        · intro s hs; simp [hh0] at hs
    | some s2 =>
      simp only [hh0] at himg
      cases hp2 : parse_u32 s2 with
      | none => simp only [hp2] at himg; cases himg
      | some n2 =>
        simp only [hp2] at himg
        cases hs0 : attrs_get attributes "src" with
        | none => simp only [hs0] at himg; cases himg
        | some s1 =>
          simp only [hs0, Except.ok.injEq, Prod.mk.injEq] at himg
          refine ⟨by rw [himg.2.2], ?_, ?_⟩
          · intro s hs; simp [hw0] at hs
          · intro s hs
            rw [Option.some.injEq] at hs
            rw [← hs, hp2]
            exact fun hcon => Option.noConfusion hcon
  | some s0 =>
    simp only [hw0] at himg
    cases hp0 : parse_u32 s0 with
    | none => simp only [hp0] at himg; cases himg
    | some n0 =>
      simp only [hp0] at himg
      cases hh0 : attrs_get attributes "height" with
      | none =>
        simp only [hh0] at himg
        cases hs0 : attrs_get attributes "src" with
        | none => simp only [hs0] at himg; cases himg
        | some s1 =>
          simp only [hs0, Except.ok.injEq, Prod.mk.injEq] at himg
          refine ⟨by rw [himg.2.2], ?_, ?_⟩
          · intro s hs
            rw [Option.some.injEq] at hs
            rw [← hs, hp0]
            exact fun hcon => Option.noConfusion hcon
          · intro s hs; simp [hh0] at hs
      | some s2 =>
        simp only [hh0] at himg
        cases hp2 : parse_u32 s2 with
        | none => simp only [hp2] at himg; cases himg
        | some n2 =>
          simp only [hp2] at himg
          cases hs0 : attrs_get attributes "src" with
          | none => simp only [hs0] at himg; cases himg
          | some s1 =>
            simp only [hs0, Except.ok.injEq, Prod.mk.injEq] at himg
            refine ⟨by rw [himg.2.2], ?_, ?_⟩
            · intro s hs
              rw [Option.some.injEq] at hs
              rw [← hs, hp0]
              exact fun hcon => Option.noConfusion hcon
            · intro s hs
              rw [Option.some.injEq] at hs
              rw [← hs, hp2]
              exact fun hcon => Option.noConfusion hcon

/-- C9: when the attribute reads succeed and the image load fails, layout
does not propagate the failure: `do_inline_block` returns `Except.ok`, the
fragment placed last on the current line is a `RenderErrorBox` whose width
and height are the declared attribute values, and an absent `width` or
`height` attribute (with `src` present) defaults both to 100. -/
theorem C9_img_error_box (measure : Measure)
    (load_image : String → Option LoadedImage)
    (sty : Style) (attributes : List (String × String))
    (children_head : Option NodeType) (block : RenderBlockBox) (l : Looper)
    (w h : ℚ) (src : String)
    (hattrs : img_attrs attributes = Except.ok (w, h, src))
    (hload : load_image src = none) :
    do_inline_block measure load_image sty "img" attributes children_head
        block l =
      Except.ok (do_inline_block_img w h none
        (sty.lookup_string "vertical-align" "baseline") l) ∧
    (do_inline_block_img w h none (sty.lookup_string "vertical-align" "baseline")
        l).current.children.getLast? =
      some (RenderInlineBoxType.Error
        { rect := { x := l.current_start, y := l.current.rect.y,
                    width := w, height := h }
          valign := sty.lookup_string "vertical-align" "baseline" }) ∧
    (attrs_get attributes "width" = none → attrs_get attributes "height" = none →
      ∀ s, attrs_get attributes "src" = some s →
        img_attrs attributes = Except.ok (100, 100, s)) := by
  refine ⟨?_, ?_, ?_⟩
  · unfold do_inline_block
    rw [if_pos (rfl : ("img" : String) = "img")]
    rw [hattrs]
    simp only
    rw [hload]
  · simp only [do_inline_block_img]
    by_cases hcond : l.current_end + w > l.extents.width
    · rw [if_pos hcond]
      show ((l.adjust_current_line_vertical.start_new_line).current.children ++
        [RenderInlineBoxType.Error _]).getLast? = _
      rw [show (l.adjust_current_line_vertical.start_new_line).current.children =
        [] from rfl]
      rfl
    · rw [if_neg hcond]
      show (l.current.children ++ [RenderInlineBoxType.Error _]).getLast? = _
      rw [List.getLast?_concat]
  · intro hw0 hh0 s hs0
    unfold img_attrs
    rw [hw0, hh0, hs0]

/-- Witness for C9 (spec scenario S6): `<img src="missing.png" width="40"
height="30">` with a failing loader leaves one `RenderErrorBox` of width
40 and height 30 on the line. -/
theorem C9_img_error_box_witness :
    (do_inline_block_img 40 30 none
        (Style.lookup_string [] "vertical-align" "baseline")
        (c5Looper "baseline")).current.children.getLast? =
      some (RenderInlineBoxType.Error
        { rect := { x := (c5Looper "baseline").current_start,
                    y := (c5Looper "baseline").current.rect.y,
                    width := 40, height := 30 }
          valign := Style.lookup_string [] "vertical-align" "baseline" }) :=
  (C9_img_error_box (fun _ _ _ _ _ => 0) (fun _ => none) []
    [("src", "missing.png"), ("width", "40"), ("height", "30")]
    none (RenderBlockBox.mk "b" ⟨0, 0, 0, 0⟩ ⟨0, 0, 0, 0⟩ ⟨0, 0, 0, 0⟩
      none none ⟨0, 0, 0, 0⟩ "baseline" [])
    (c5Looper "baseline") 40 30 "missing.png"
    (by with_unfolding_all rfl) rfl).2.1

/-- C10: laying an `<img>` out panics before the recoverable error-box path
when `src` is absent or a present `width`/`height` attribute does not parse
as an unsigned integer: `do_inline_block` yields no result at all. -/
theorem C10_img_attr_panic (attributes : List (String × String)) :
    (attrs_get attributes "src" = none →
      ∀ (measure : Measure) (load_image : String → Option LoadedImage)
        (sty : Style) (ch : Option NodeType) (blk : RenderBlockBox) (l : Looper),
        (do_inline_block measure load_image sty "img" attributes ch blk
          l).toOption = none) ∧
    (∀ s, attrs_get attributes "width" = some s → parse_u32 s = none →
      ∀ (measure : Measure) (load_image : String → Option LoadedImage)
        (sty : Style) (ch : Option NodeType) (blk : RenderBlockBox) (l : Looper),
        (do_inline_block measure load_image sty "img" attributes ch blk
          l).toOption = none) ∧
    (∀ s, attrs_get attributes "height" = some s → parse_u32 s = none →
      ∀ (measure : Measure) (load_image : String → Option LoadedImage)
        (sty : Style) (ch : Option NodeType) (blk : RenderBlockBox) (l : Looper),
        (do_inline_block measure load_image sty "img" attributes ch blk
          l).toOption = none) := by
  refine ⟨?_, ?_, ?_⟩
  · intro hsrc measure load_image sty ch blk l
    unfold do_inline_block
    rw [if_pos (rfl : ("img" : String) = "img")]
    cases himg : img_attrs attributes with
    | error e => rfl
    | ok whs =>
      exfalso
      obtain ⟨w1, h1, s1⟩ := whs
      have hinv := img_attrs_ok_inv attributes w1 h1 s1 himg
      rw [hsrc] at hinv
      cases hinv.1
  · intro s hw hp measure load_image sty ch blk l
    unfold do_inline_block
    rw [if_pos (rfl : ("img" : String) = "img")]
    cases himg : img_attrs attributes with
    | error e => rfl
    | ok whs =>
      exfalso
      obtain ⟨w1, h1, s1⟩ := whs
      have hinv := img_attrs_ok_inv attributes w1 h1 s1 himg
      exact hinv.2.1 s hw hp
  · intro s hh hp measure load_image sty ch blk l
    unfold do_inline_block
    rw [if_pos (rfl : ("img" : String) = "img")]
    cases himg : img_attrs attributes with
    | error e => rfl
    | ok whs =>
      exfalso
      obtain ⟨w1, h1, s1⟩ := whs
      have hinv := img_attrs_ok_inv attributes w1 h1 s1 himg
      exact hinv.2.2 s hh hp

/-- Witness for C10: an `<img>` with no `src`, and one with `width="4x"`,
both abort layout. -/
theorem C10_img_attr_panic_witness :
    (do_inline_block (fun _ _ _ _ _ => 0) (fun _ => none) [] "img"
      [("width", "40")] none
      (RenderBlockBox.mk "b" ⟨0, 0, 0, 0⟩ ⟨0, 0, 0, 0⟩ ⟨0, 0, 0, 0⟩
        none none ⟨0, 0, 0, 0⟩ "baseline" [])
      (c5Looper "top")).toOption = none ∧
    (do_inline_block (fun _ _ _ _ _ => 0) (fun _ => none) [] "img"
      [("src", "a.png"), ("width", "4x")] none
      (RenderBlockBox.mk "b" ⟨0, 0, 0, 0⟩ ⟨0, 0, 0, 0⟩ ⟨0, 0, 0, 0⟩
        none none ⟨0, 0, 0, 0⟩ "baseline" [])
      (c5Looper "top")).toOption = none :=
  ⟨(C10_img_attr_panic [("width", "40")]).1 (by with_unfolding_all rfl)
      (fun _ _ _ _ _ => 0) (fun _ => none) [] none
      (RenderBlockBox.mk "b" ⟨0, 0, 0, 0⟩ ⟨0, 0, 0, 0⟩ ⟨0, 0, 0, 0⟩
        none none ⟨0, 0, 0, 0⟩ "baseline" [])
      (c5Looper "top"),
   (C10_img_attr_panic [("src", "a.png"), ("width", "4x")]).2.1 "4x"
      (by with_unfolding_all rfl) (by with_unfolding_all rfl)
      (fun _ _ _ _ _ => 0) (fun _ => none) [] none
      (RenderBlockBox.mk "b" ⟨0, 0, 0, 0⟩ ⟨0, 0, 0, 0⟩ ⟨0, 0, 0, 0⟩
        none none ⟨0, 0, 0, 0⟩ "baseline" [])
      (c5Looper "top")⟩

end Minibrowser
